import Mathlib

/-!
Shallow embedding of the go-tmux library (pane.go, configuration.go, window.go)
for verification of the natural-language specification.

The external tmux process is modelled as a scripted collaborator: every external
call pops the next response from a script and is recorded in a call trace.
-/

set_option maxRecDepth 4000

namespace GoTmux

/-- Errors returned by the Go code.  `msg` models a Go `error` value carrying a
message; `crash` models a Go runtime panic (out-of-range index or slice). -/
inductive GoError where
  | msg (s : String)
  | crash (s : String)
deriving DecidableEq, Repr

/-- Mirrors the Go struct `Pane` of pane.go. -/
structure Pane where
  id : Int
  sessionId : Int
  sessionName : String
  windowId : Int
  windowName : String
  windowIndex : Int
  active : Bool
  index : Int
deriving DecidableEq, Repr

/-- Mirrors the Go struct `Window` of window.go. -/
structure Window where
  name : String
  id : Int
  sessionId : Int
  sessionName : String
  startDirectory : String
  layout : String
  panes : List Pane
deriving DecidableEq, Repr

/-- Modelled from the spec: the Server is a process-wide handle identifying the
multiplexer instance (its definition is not part of the given sources). -/
structure Server where
  name : String
deriving DecidableEq, Repr

/-- Modelled from the spec: a Session is a named, integer-identified container of
windows with an optional start directory (session.go is not part of the given
sources; the fields are those used by configuration.go). -/
structure Session where
  name : String
  id : Int
  startDirectory : String
  windows : List Window
deriving DecidableEq, Repr

/-- Realized identity returned by the (missing) session-creation call. -/
structure SessionRec where
  name : String
  id : Int
deriving DecidableEq, Repr

/-- Realized identity returned by the (missing) window-creation call. -/
structure WindowRec where
  name : String
  id : Int
deriving DecidableEq, Repr

/-- Mirrors the Go struct `Configuration` of configuration.go.  `ActiveSession`
is a pointer into the `Sessions` slice; pointer identity (`s == c.ActiveSession`)
is modelled as the index of the designated session. -/
structure Configuration where
  server : Option Server
  sessions : List Session
  activeSession : Option Nat
deriving DecidableEq, Repr

deriving instance DecidableEq for Except

/-- One scripted response of the external collaborator.  `cmd` answers a raw
`RunCmd` invocation with (stdout, stderr, error); the other variants answer the
spec-modelled session/window operations whose Go sources are missing. -/
inductive Resp where
  | cmd (stdout : String) (stderr : String) (err : Option String)
  | newSession (res : Except String SessionRec)
  | newWindow (res : Except String WindowRec)
  | attachResp (res : Except String Unit)
deriving DecidableEq, Repr

/-- A record of one external call that was issued. -/
inductive Call where
  | runCmd (args : List String)
  | newSession (name : String) (extraArgs : List String)
  | newWindow (sessionName : String) (name : String) (extraArgs : List String)
  | attachCall (sessionName : String)
deriving DecidableEq, Repr

/-- The external world: the remaining script and the trace of issued calls. -/
structure World where
  script : List Resp
  calls : List Call
deriving DecidableEq, Repr

/-- Models the executor boundary `RunCmd(args) -> (stdout, stderr, error)`:
pops the next scripted response and records the call.  A missing or mismatched
response is answered as a failed command. -/
def RunCmd (args : List String) (wd : World) : (String × String × Option String) × World :=
  match wd.script with
  | Resp.cmd out errOut e :: rest =>
      ((out, errOut, e), ⟨rest, wd.calls ++ [Call.runCmd args]⟩)
  | _ :: rest => (("", "", some ("unexpected response")), ⟨rest, wd.calls ++ [Call.runCmd args]⟩)
  | [] => (("", "", some ("no response")), ⟨[], wd.calls ++ [Call.runCmd args]⟩)

/-- Modelled from the spec: `Server.NewSession` issues one session-creation call
through the executor, passing the requested name and extra arguments, and on
success returns the realized session identity; on failure it propagates the
error (session.go / server.go are not part of the given sources). -/
def newSessionOp (name : String) (extraArgs : List String) (wd : World) :
    Except GoError SessionRec × World :=
  match wd.script with
  | Resp.newSession (.ok r) :: rest =>
      (.ok r, ⟨rest, wd.calls ++ [Call.newSession name extraArgs]⟩)
  | Resp.newSession (.error m) :: rest =>
      (.error (.msg m), ⟨rest, wd.calls ++ [Call.newSession name extraArgs]⟩)
  | _ :: rest => (.error (.msg ("unexpected response")), ⟨rest, wd.calls ++ [Call.newSession name extraArgs]⟩)
  | [] => (.error (.msg ("no response")), ⟨[], wd.calls ++ [Call.newSession name extraArgs]⟩)

/-- Modelled from the spec: `Session.NewWindow` issues one window-creation call
through the executor and on success returns the realized window identity; on
failure it propagates the error (session.go is not part of the given sources). -/
def newWindowOp (sessionName : String) (name : String) (extraArgs : List String) (wd : World) :
    Except GoError WindowRec × World :=
  match wd.script with
  | Resp.newWindow (.ok r) :: rest =>
      (.ok r, ⟨rest, wd.calls ++ [Call.newWindow sessionName name extraArgs]⟩)
  | Resp.newWindow (.error m) :: rest =>
      (.error (.msg m), ⟨rest, wd.calls ++ [Call.newWindow sessionName name extraArgs]⟩)
  | _ :: rest => (.error (.msg ("unexpected response")), ⟨rest, wd.calls ++ [Call.newWindow sessionName name extraArgs]⟩)
  | [] => (.error (.msg ("no response")), ⟨[], wd.calls ++ [Call.newWindow sessionName name extraArgs]⟩)

/-- Modelled from the spec: `Session.AttachSession` issues one attach call for
the session and reports success or failure (session.go is not part of the given
sources). -/
def attachSessionOp (sessionName : String) (wd : World) : Except GoError Unit × World :=
  match wd.script with
  | Resp.attachResp (.ok _) :: rest =>
      (.ok (), ⟨rest, wd.calls ++ [Call.attachCall sessionName]⟩)
  | Resp.attachResp (.error m) :: rest =>
      (.error (.msg m), ⟨rest, wd.calls ++ [Call.attachCall sessionName]⟩)
  | _ :: rest => (.error (.msg ("unexpected response")), ⟨rest, wd.calls ++ [Call.attachCall sessionName]⟩)
  | [] => (.error (.msg ("no response")), ⟨[], wd.calls ++ [Call.attachCall sessionName]⟩)

/-! ### Output parser (pane.go `ListPanes`)

The Go code matches each output line against the RE2 pattern
`\$([0-9]+):(.+):@([0-9]+):(.+):([0-9]+):%([0-9]+):([01]):([0-9]+)`
with `FindStringSubmatch` (leftmost match, greedy one-or-more groups, an
exactly-one group for `([01])`,
`.` excludes the newline).  The pattern has no alternation or nesting, so it is
embedded as a token list interpreted by a greedy backtracking matcher with the
same submatch semantics. -/

/-- One token of the fixed pane-listing pattern: a literal character, a
captured greedy one-or-more repetition of a character class, or a captured
single character of a class (such as `([01])`). -/
inductive RTok where
  | lit (c : Char)
  | grp (p : Char → Bool)
  | one (p : Char → Bool)

/-- Length of the longest prefix of `s` whose characters satisfy `p`. -/
def maxRun (p : Char → Bool) : List Char → Nat
  | [] => 0
  | c :: cs => if p c then maxRun p cs + 1 else 0

/-- Tries group lengths `i, i-1, …, 1` (longest first) for a one-or-more
group, handing the remainder of the input to the continuation `cont`. -/
def tryLens (cont : List Char → Option (List (List Char))) (s : List Char) :
    Nat → Option (List (List Char))
  | 0 => none
  | i + 1 =>
      match cont (s.drop (i + 1)) with
      | some gs => some (s.take (i + 1) :: gs)
      | none => tryLens cont s i

/-- Matches the token list at the start of `s` (the rest of `s` may remain),
returning the captured groups in order, with greedy, backtracking one-or-more
groups — the submatch semantics of Go's `regexp` on this pattern. -/
def matchToks : List RTok → List Char → Option (List (List Char))
  | [], _ => some []
  | .lit _ :: _, [] => none
  | .lit c :: ts, x :: xs => if x = c then matchToks ts xs else none
  | .one _ :: _, [] => none
  | .one p :: ts, x :: xs =>
      if p x then (matchToks ts xs).map (fun gs => [x] :: gs) else none
  | .grp p :: ts, s => tryLens (matchToks ts) s (maxRun p s)

/-- `FindStringSubmatch`: the leftmost position where the pattern matches,
returning its captured groups. -/
def findSub (toks : List RTok) : List Char → Option (List (List Char))
  | [] => matchToks toks []
  | x :: xs =>
      match matchToks toks (x :: xs) with
      | some gs => some gs
      | none => findSub toks xs

/-- The character class `[0-9]`. -/
def isDig (c : Char) : Bool := '0' ≤ c && c ≤ '9'

/-- The character class `[01]`. -/
def is01 (c : Char) : Bool := c = '0' || c = '1'

/-- The character class `.` of RE2: any character except the newline. -/
def isAny (c : Char) : Bool := c ≠ '\n'

/-- The token list of the pane-listing pattern of pane.go. -/
def panePattern : List RTok :=
  [.lit '$', .grp isDig, .lit ':', .grp isAny, .lit ':', .lit '@', .grp isDig,
   .lit ':', .grp isAny, .lit ':', .grp isDig, .lit ':', .lit '%', .grp isDig,
   .lit ':', .one is01, .lit ':', .grp isDig]

/-- Value of a digit string (most significant first). -/
def digitsVal : List Char → Nat
  | [] => 0
  | c :: cs => (c.toNat - '0'.toNat) * 10 ^ cs.length + digitsVal cs

/-- Models Go's `strconv.Atoi` on a 64-bit platform: an optional sign followed
by at least one decimal digit, failing on any other character, on the empty
string, and on values outside the `int64` range. -/
def goAtoi (s : List Char) : Except Unit Int :=
  let core : List Char → Bool → Except Unit Int := fun ds neg =>
    if ds.isEmpty || !(ds.all isDig) then .error ()
    else
      let v : Int := Int.ofNat (digitsVal ds)
      let v := if neg then -v else v
      if v < -(2 ^ 63) || 2 ^ 63 - 1 < v then .error () else .ok v
  match s with
  | '+' :: ds => core ds false
  | '-' :: ds => core ds true
  | ds => core ds false

/-- Models `strings.Split(out, "\n")`. -/
def splitNL : List Char → List (List Char)
  | [] => [[]]
  | c :: cs =>
      if c = '\n' then [] :: splitNL cs
      else
        match splitNL cs with
        | l :: ls => (c :: l) :: ls
        | [] => [[c]]

/-- Processing of one output line by the loop body of `ListPanes`: lines that do
not produce a full submatch are skipped (`ok none`); a failing `strconv.Atoi`
on a numeric group aborts the whole call. -/
def parseLine (l : List Char) : Except GoError (Option Pane) :=
  match findSub panePattern l with
  | none => .ok none
  | some gs =>
      match gs with
      | [g1, g2, g3, g4, g5, g6, g7, g8] =>
          match goAtoi g1 with
          | .error _ => .error (.msg ("strconv.Atoi error"))
          | .ok sessionID =>
              match goAtoi g3 with
              | .error _ => .error (.msg ("strconv.Atoi error"))
              | .ok windowID =>
                  match goAtoi g5 with
                  | .error _ => .error (.msg ("strconv.Atoi error"))
                  | .ok windowIndex =>
                      match goAtoi g6 with
                      | .error _ => .error (.msg ("strconv.Atoi error"))
                      | .ok paneId =>
                          match goAtoi g8 with
                          | .error _ => .error (.msg ("strconv.Atoi error"))
                          | .ok paneIndex =>
                              .ok (some
                                { id := paneId
                                  sessionId := sessionID
                                  sessionName := g2.asString
                                  windowId := windowID
                                  windowName := g4.asString
                                  windowIndex := windowIndex
                                  active := g7.asString == "1"
                                  index := paneIndex })
      | _ => .ok none

/-- The parsing loop of `ListPanes` over the split output lines. -/
def parseLines : List (List Char) → Except GoError (List Pane)
  | [] => .ok []
  | l :: ls =>
      match parseLine l with
      | .error e => .error e
      | .ok none => parseLines ls
      | .ok (some p) =>
          match parseLines ls with
          | .error e => .error e
          | .ok ps => .ok (p :: ps)

/-- The `-F` format string built by `ListPanes`. -/
def listPanesFormat : String :=
  "#\x7bsession_id\x7d:#\x7bsession_name\x7d:#\x7bwindow_id\x7d:#\x7bwindow_name\x7d:#\x7bwindow_index\x7d:#\x7bpane_id\x7d:#\x7bpane_active\x7d:#\x7bpane_index\x7d"

/-- Mirrors `ListPanes` of pane.go: runs `list-panes` with the fixed format and
the caller's scope arguments, then parses each output line; the command error
and any numeric-parse error fail the whole call. -/
def ListPanes (args : List String) (wd : World) : Except GoError (List Pane) × World :=
  match RunCmd ([("list-panes" : String), ("-F" : String), listPanesFormat] ++ args) wd with
  | ((out, _, errv), wd') =>
      match errv with
      | some m => (.error (.msg m), wd')
      | none => (parseLines (splitNL out.toList), wd')

/-- Mirrors `Window.ListPanes` of window.go. -/
def Window.ListPanes (w : Window) (wd : World) : Except GoError (List Pane) × World :=
  GoTmux.ListPanes [("-t" : String) ++ w.sessionName ++ (":" : String) ++ w.name] wd

/-! ### Window.SplitPane (window.go) and Pane.GetCurrentPath (pane.go) -/

/-- Models `strings.Contains` on character lists. -/
def strContains (s sub : List Char) : Bool :=
  if sub.isPrefixOf s then true
  else
    match s with
    | [] => false
    | _ :: xs => strContains xs sub

/-- The zero value of the Go `Pane` struct (the named return `pane` of
`SplitPane` when returned without ever being assigned). -/
def zeroPane : Pane :=
  { id := 0, sessionId := 0, sessionName := "", windowId := 0, windowName := "",
    windowIndex := 0, active := false, index := 0 }

/-- The argument vector `SplitPane` passes to the executor. -/
def splitArgs (w : Window) : List String :=
  [("split-window" : String), ("-t" : String), w.sessionName ++ (":" : String) ++ w.name,
   ("-c" : String), w.startDirectory, ("-F" : String), ("#\x7bpane_id\x7d" : String)]

/-- Mirrors `Window.SplitPane` of window.go, faithfully including its control
flow: a failing split command whose stderr does not contain "exit status 1" is
propagated; otherwise the window is re-listed.  When the split command had
failed (tolerated case) the function returns the *zero* pane together with the
re-listing's error value (which is `nil` when the re-listing succeeded) and
does not touch `w.Panes`; when the split command succeeded, the last element of
the re-listing is appended to `w.Panes` and returned — indexing that panics on
an empty listing (and also when the unchecked re-listing error left it empty). -/
def Window.SplitPane (w : Window) (wd : World) : Except GoError (Pane × Window) × World :=
  match RunCmd (splitArgs w) wd with
  | ((_, errOut, errExec), wd1) =>
      if errExec.isSome && !(strContains errOut.toList ("exit status 1".toList)) then
        (.error (.msg (errExec.getD "")), wd1)
      else
        match Window.ListPanes w wd1 with
        | (lp, wd2) =>
            if errExec.isSome then
              match lp with
              | .error e => (.error e, wd2)
              | .ok _ => (.ok (zeroPane, w), wd2)
            else
              match lp with
              | .error _ => (.error (.crash ("index out of range")), wd2)
              | .ok panes =>
                  match panes.getLast? with
                  | none => (.error (.crash ("index out of range")), wd2)
                  | some p => (.ok (p, { w with panes := w.panes ++ [p] }), wd2)

/-- Mirrors `Pane.GetCurrentPath` of pane.go: on command success the code
executes `out = out[:len(out)-1]`, removing the final character whatever it is
and panicking on an empty stdout. -/
def Pane.GetCurrentPath (_p : Pane) (wd : World) : Except GoError String × World :=
  let args := [("display-message" : String), ("-P" : String), ("-F" : String),
    ("#\x7bpane_current_path\x7d" : String)]
  match RunCmd args wd with
  | ((out, _, errv), wd') =>
      match errv with
      | some m => (.error (.msg m), wd')
      | none =>
          match out.toList with
          | [] => (.error (.crash ("slice bounds out of range")), wd')
          | l => (.ok (l.dropLast.asString), wd')

/-! ### Configuration.Apply (configuration.go) -/

/-- Mirrors `checkInput` of configuration.go: the first declared session with no
windows fails validation. -/
def checkInput : List Session → Except GoError Unit
  | [] => .ok ()
  | s :: rest =>
      if s.windows.isEmpty then
        .error (.msg (("Session " : String) ++ s.name ++ (" doesn't contain any windows!" : String)))
      else checkInput rest

/-- The pane-setup loop of `Apply`: for every index of the originally declared
pane list except 0, split the window and write the returned pane into that slot
(`w.Panes[idx] = pane`, a runtime panic when the slot does not exist). -/
def setupPanes (w : Window) : List Nat → World → Except GoError Window × World
  | [], wd => (.ok w, wd)
  | idx :: rest, wd =>
      if idx = 0 then setupPanes w rest wd
      else
        match Window.SplitPane w wd with
        | (.error e, wd1) => (.error e, wd1)
        | (.ok (pane, w1), wd1) =>
            if idx < w1.panes.length then
              setupPanes { w1 with panes := w1.panes.set idx pane } rest wd1
            else (.error (.crash ("index out of range")), wd1)

/-- The pane stage of `Apply` for one window: remember the declared panes,
replace `w.Panes` by the re-queried listing (`w.Panes, _ = w.ListPanes()`
discards the error, leaving `nil` on failure), then run the split loop over the
declared indices. -/
def paneStage (w : Window) (wd : World) : Except GoError Window × World :=
  let origCount := w.panes.length
  match Window.ListPanes w wd with
  | (lp, wd1) =>
      let w1 := { w with panes := match lp with | .ok ps => ps | .error _ => [] }
      setupPanes w1 (List.range origCount) wd1

/-- The layout stage of `Apply` for one window: when a layout is declared,
issue `select-layout` against the window id and propagate its error. -/
def layoutStage (w : Window) (wd : World) : Except GoError Unit × World :=
  if w.layout = "" then (.ok (), wd)
  else
    match RunCmd [("select-layout" : String), ("-t" : String), toString w.id, w.layout] wd with
    | ((_, _, errExec), wd1) =>
        match errExec with
        | some m => (.error (.msg m), wd1)
        | none => (.ok (), wd1)

/-- Directory inheritance of `Apply`: a window without a start directory takes
the session's, when the session has one. -/
def inheritDir (sdir : String) (w : Window) : Window :=
  if w.startDirectory = "" && sdir ≠ "" then { w with startDirectory := sdir } else w

/-- The extra argument vector of the window-creation call. -/
def windowArgs (w : Window) : List String :=
  if w.startDirectory ≠ "" then [("-c" : String), w.startDirectory] else []

/-- The window-creation step of `Apply`: a window named like the initial window
is reused with id 0 and no creation call; any other window is created and its
realized name and id are captured. -/
def createStage (sname : String) (initialName : String) (w : Window) (wd : World) :
    Except GoError Window × World :=
  if w.name = initialName then (.ok { w with id := 0 }, wd)
  else
    match newWindowOp sname w.name (windowArgs w) wd with
    | (.ok r, wd1) => (.ok { w with name := r.name, id := r.id }, wd1)
    | (.error e, wd1) => (.error e, wd1)

/-- The tail of `Apply`'s per-window body after window creation or reuse:
tagging with the session identity, pane setup, layout. -/
def windowTail (sname : String) (sid : Int) (w1 : Window) (wd1 : World) :
    Except GoError Window × World :=
  match paneStage { w1 with sessionName := sname, sessionId := sid } wd1 with
  | (.error e, wd2) => (.error e, wd2)
  | (.ok w3, wd2) =>
      match layoutStage w3 wd2 with
      | (.error e, wd3) => (.error e, wd3)
      | (.ok _, wd3) => (.ok w3, wd3)

/-- The per-window body of `Apply`'s window loop: directory inheritance, window
creation or reuse, tagging with the session identity, pane setup, layout. -/
def setupWindow (sname : String) (sid : Int) (sdir : String) (initialName : String)
    (w0 : Window) (wd : World) : Except GoError Window × World :=
  match createStage sname initialName (inheritDir sdir w0) wd with
  | (.error e, wd1) => (.error e, wd1)
  | (.ok w1, wd1) => windowTail sname sid w1 wd1

/-- The window loop of `Apply` over one session's declared windows, collecting
the realized windows in order. -/
def applyWindows (sname : String) (sid : Int) (sdir : String) (initialName : String) :
    List Window → World → Except GoError (List Window) × World
  | [], wd => (.ok [], wd)
  | w :: ws, wd =>
      match setupWindow sname sid sdir initialName w wd with
      | (.error e, wd1) => (.error e, wd1)
      | (.ok w', wd1) =>
          match applyWindows sname sid sdir initialName ws wd1 with
          | (.error e, wd2) => (.error e, wd2)
          | (.ok rest, wd2) => (.ok (w' :: rest), wd2)

/-- The per-session body of `Apply`: create the session passing the initial
window's name (and the session start directory when set), capture the realized
identity, attach when this is the active session — its result is discarded, as
in the source — then run the window loop and store the realized windows. -/
def applySession (isActive : Bool) (s : Session) (wd : World) :
    Except GoError Session × World :=
  match s.windows.head? with
  | none => (.error (.crash ("index out of range")), wd)
  | some initialWindow =>
      let extraArgs := [("-n" : String), initialWindow.name] ++
        (if s.startDirectory ≠ "" then [("-c" : String), s.startDirectory] else [])
      match newSessionOp s.name extraArgs wd with
      | (.error e, wd1) => (.error e, wd1)
      | (.ok r, wd1) =>
          let s1 := { s with name := r.name, id := r.id }
          let wd2 := if isActive then (attachSessionOp s1.name wd1).2 else wd1
          match applyWindows s1.name s1.id s1.startDirectory initialWindow.name s1.windows wd2 with
          | (.error e, wd3) => (.error e, wd3)
          | (.ok ws, wd3) => (.ok { s1 with windows := ws }, wd3)

/-- The session loop of `Apply`, keeping the declaration order. -/
def applySessions (activeIdx : Option Nat) : Nat → List Session → World →
    Except GoError (List Session) × World
  | _, [], wd => (.ok [], wd)
  | si, s :: rest, wd =>
      match applySession (activeIdx = some si) s wd with
      | (.error e, wd1) => (.error e, wd1)
      | (.ok s', wd1) =>
          match applySessions activeIdx (si + 1) rest wd1 with
          | (.error e, wd2) => (.error e, wd2)
          | (.ok rest', wd2) => (.ok (s' :: rest'), wd2)

/-- Mirrors `Configuration.Apply` of configuration.go: validation (server
present, at least one session, every session has windows) followed by the
session loop; on success the realized sessions replace the declared ones. -/
def Configuration.Apply (c : Configuration) (wd : World) :
    Except GoError Configuration × World :=
  match c.server with
  | none => (.error (.msg ("Server was not initialized")), wd)
  | some _ =>
      if c.sessions.isEmpty then
        (.error (.msg ("Requiered at least single tmux session to apply configuration")), wd)
      else
        match checkInput c.sessions with
        | .error e => (.error e, wd)
        | .ok _ =>
            match applySessions c.activeSession 0 c.sessions wd with
            | (.error e, wd1) => (.error e, wd1)
            | (.ok ss, wd1) => (.ok { c with sessions := ss }, wd1)

/-! ### Well-formed listings (claim C7) -/

/-- The raw fields of one pane line of the documented listing format. -/
structure RawPane where
  sid : List Char
  sname : List Char
  wid : List Char
  wname : List Char
  widx : List Char
  pid : List Char
  act : Bool
  pidx : List Char

/-- Name well-formedness: nonempty and free of the field separator, the two
sigils that open later fields, and the newline.  (The spec itself flags
delimiter collision inside names as outside the format's guarantees.) -/
def goodName (n : List Char) : Prop :=
  n ≠ [] ∧ ∀ c ∈ n, c ≠ ':' ∧ c ≠ '@' ∧ c ≠ '%' ∧ c ≠ '\n'

/-- Numeric-field well-formedness: nonempty decimal digits whose value is
accepted by `strconv.Atoi` (within the `int64` range). -/
def goodNum (d : List Char) : Prop :=
  d ≠ [] ∧ (∀ c ∈ d, isDig c = true) ∧ (goAtoi d).isOk = true

/-- Well-formedness of one raw pane line. -/
def WFRaw (r : RawPane) : Prop :=
  goodNum r.sid ∧ goodName r.sname ∧ goodNum r.wid ∧ goodName r.wname ∧
    goodNum r.widx ∧ goodNum r.pid ∧ goodNum r.pidx

instance (r : RawPane) : Decidable (WFRaw r) := by
  unfold WFRaw goodNum goodName
  infer_instance

/-- The character of the pane-active field. -/
def actChar (b : Bool) : Char := if b then '1' else '0'

/-- One line of the documented colon-separated format, sigils included. -/
def renderLine (r : RawPane) : List Char :=
  '$' :: r.sid ++ ':' :: r.sname ++ ':' :: '@' :: r.wid ++ ':' :: r.wname ++
    ':' :: r.widx ++ ':' :: '%' :: r.pid ++ ':' :: actChar r.act :: ':' :: r.pidx

/-- A listing: one line per pane, each terminated by a newline. -/
def renderListing : List RawPane → List Char
  | [] => []
  | r :: rest => renderLine r ++ '\n' :: renderListing rest

/-- Numeric value of a field accepted by `goAtoi`. -/
def atoiVal (d : List Char) : Int :=
  match goAtoi d with
  | .ok v => v
  | .error _ => 0

/-- The Pane record the parser is expected to produce for a raw line: sigils
stripped, numeric fields parsed, and the active flag mapped from the '1'/'0'
character. -/
def rawToPane (r : RawPane) : Pane :=
  { id := atoiVal r.pid, sessionId := atoiVal r.sid, sessionName := r.sname.asString,
    windowId := atoiVal r.wid, windowName := r.wname.asString,
    windowIndex := atoiVal r.widx, active := r.act, index := atoiVal r.pidx }

/-! ### Concrete fixtures used by witnesses and counterexamples -/

/-- A window fixture: one declared pane, no layout. -/
def c10win : Window :=
  { name := "w", id := 0, sessionId := 1, sessionName := "s",
    startDirectory := "", layout := "", panes := [zeroPane] }

/-- A window fixture for the tolerated-split scenario. -/
def c2win : Window :=
  { name := "w", id := 0, sessionId := 1, sessionName := "s",
    startDirectory := "", layout := "", panes := [zeroPane] }

/-- Script for the tolerated-split scenario: the split command fails with
stderr containing "exit status 1" and the re-listing then succeeds with two
panes. -/
def c2wd : World :=
  ⟨[Resp.cmd ("") ("exit status 1") (some ("exit status 1")),
    Resp.cmd ("$1:s:@2:w:0:%3:1:0\n$1:s:@2:w:0:%4:0:1\n") ("") none], []⟩

/-- The first pane of the re-queried listing in the tolerated-split scenario. -/
def c2p0 : Pane :=
  { id := 3, sessionId := 1, sessionName := "s", windowId := 2, windowName := "w",
    windowIndex := 0, active := true, index := 0 }

/-- The last pane of the re-queried listing in the tolerated-split scenario. -/
def c2p1 : Pane :=
  { id := 4, sessionId := 1, sessionName := "s", windowId := 2, windowName := "w",
    windowIndex := 0, active := false, index := 1 }

/-- A sequence of successful `SplitPane` invocations from a window/world pair,
recording the returned panes in order together with the final window and
world. -/
inductive SplitChain : Window → World → List Pane → Window → World → Prop
  | nil (w : Window) (wd : World) : SplitChain w wd [] w wd
  | cons {w : Window} {wd : World} {p : Pane} {w1 : Window} {wd1 : World}
      {qs : List Pane} {w2 : Window} {wd2 : World}
      (h : Window.SplitPane w wd = (.ok (p, w1), wd1))
      (rest : SplitChain w1 wd1 qs w2 wd2) :
      SplitChain w wd (p :: qs) w2 wd2

/-- Window fixture for the pane-count scenario: two declared panes. -/
def c1win : Window :=
  { name := "w", id := 0, sessionId := 1, sessionName := "s",
    startDirectory := "", layout := "", panes := [zeroPane, zeroPane] }

/-- Script for the pane-count scenario: the refresh lists the one implicit
pane, the split command succeeds, and the re-listing shows two panes. -/
def c1wd : World :=
  ⟨[Resp.cmd ("$1:s:@2:w:0:%3:1:0\n") ("") none,
    Resp.cmd ("") ("") none,
    Resp.cmd ("$1:s:@2:w:0:%3:1:0\n$1:s:@2:w:0:%4:0:1\n") ("") none], []⟩

/-- The implicit pane reported by the refresh in the pane-count scenario. -/
def c1p0 : Pane :=
  { id := 3, sessionId := 1, sessionName := "s", windowId := 2, windowName := "w",
    windowIndex := 0, active := true, index := 0 }

/-- A line that produces a full submatch of the pane pattern but has a numeric
field on which `strconv.Atoi` fails (for digit-only groups this means a value
outside the `int64` range). -/
def badNumericLine (l : List Char) : Bool :=
  match findSub panePattern l with
  | some [g1, _, g3, _, g5, g6, _, g8] =>
      !((goAtoi g1).isOk && (goAtoi g3).isOk && (goAtoi g5).isOk &&
        (goAtoi g6).isOk && (goAtoi g8).isOk)
  | _ => false

/-- Stdout fixture for the malformed-numeric-field scenario: the pane id
overflows `int64`. -/
def c3out : String := "$1:s:@2:w:0:%99999999999999999999:1:0"

/-- Window fixture for the initial-window-reuse branch: its name equals the
initial window's. -/
def c8winA : Window :=
  { name := "w", id := 9, sessionId := 0, sessionName := "",
    startDirectory := "", layout := "", panes := [zeroPane] }

/-- Script for the reuse branch: only the pane refresh answers. -/
def c8wdA : World := ⟨[Resp.cmd ("$1:s:@2:w:0:%3:1:0\n") ("") none], []⟩

/-- Window fixture for the creation branch: its name differs from the initial
window's. -/
def c8winB : Window :=
  { name := "v", id := 0, sessionId := 0, sessionName := "",
    startDirectory := "", layout := "", panes := [zeroPane] }

/-- Script for the creation branch: the window-creation response realizes the
window as ("v2", 5), then the pane refresh answers. -/
def c8wdB : World :=
  ⟨[Resp.newWindow (.ok ⟨"v2", 5⟩), Resp.cmd ("$1:s:@2:v2:0:%3:1:0\n") ("") none], []⟩

/-- A one-pane window named like the initial window (fixture). -/
def c4winIW : Window :=
  { name := "w", id := 0, sessionId := 0, sessionName := "s",
    startDirectory := "", layout := "", panes := [zeroPane] }

/-- A window needing creation (name differs from the initial window). -/
def c4winX : Window :=
  { name := "x", id := 0, sessionId := 0, sessionName := "s",
    startDirectory := "", layout := "", panes := [zeroPane] }

/-- A two-pane window named like the initial window. -/
def c4win2 : Window :=
  { name := "w", id := 0, sessionId := 0, sessionName := "s",
    startDirectory := "", layout := "", panes := [zeroPane, zeroPane] }

/-- A one-pane window with a declared layout. -/
def c4winL : Window :=
  { name := "w", id := 0, sessionId := 0, sessionName := "s",
    startDirectory := "", layout := "tiled", panes := [zeroPane] }

/-- A session whose single window declares two panes. -/
def c4sess2 : Session :=
  { name := "t", id := 0, startDirectory := "", windows := [c4win2] }

/-- A session whose single window declares one pane. -/
def c4sess1 : Session :=
  { name := "t", id := 0, startDirectory := "", windows := [c4winIW] }

/-- Configuration fixture around `c4sess2`. -/
def c4cfgA : Configuration :=
  { server := some ⟨"srv"⟩, sessions := [c4sess2], activeSession := none }

/-- Configuration and script for the counterexample: the attach response and
the pane-refresh response both fail, yet Apply succeeds. -/
def c4cfgSwallow : Configuration :=
  { server := some ⟨"srv"⟩, sessions := [c4sess1], activeSession := some 0 }

/-- Script for the swallow counterexample. -/
def c4wdSwallow : World :=
  ⟨[Resp.newSession (.ok ⟨"t", 7⟩), Resp.attachResp (.error ("attach failed")),
    Resp.cmd ("") ("refresh failed") (some ("refresh failed"))], []⟩

/-- A one-line pane listing used by several propagation scripts. -/
def c4line : String := "$1:t:@2:w:0:%3:1:0\n"

/-- Scripts for the propagation witness, one per failing sub-operation. -/
def c4wdP1 : World := ⟨[Resp.newSession (.error ("be1"))], []⟩

def c4wdP2 : World := ⟨[Resp.newWindow (.error ("be2"))], []⟩

def c4wdP3 : World := ⟨[Resp.cmd ("") ("boom") (some ("be3"))], []⟩

def c4wdP5 : World := ⟨[Resp.cmd c4line ("") none, Resp.cmd ("") ("boom") (some ("be5"))], []⟩

def c4wdP6 : World := ⟨[Resp.cmd ("") ("") (some ("be6"))], []⟩

def c4wdP7 : World := ⟨[Resp.cmd c4line ("") none, Resp.cmd ("") ("") (some ("be7"))], []⟩

def c4wdP9 : World := ⟨[Resp.cmd c4line ("") none, Resp.newWindow (.error ("be2"))], []⟩

def c4wdP10 : World :=
  ⟨[Resp.newSession (.ok ⟨"t", 3⟩), Resp.cmd c4line ("") none,
    Resp.cmd ("") ("boom") (some ("be3"))], []⟩

def c4wdP12 : World :=
  ⟨[Resp.newSession (.ok ⟨"t", 5⟩), Resp.cmd c4line ("") none,
    Resp.newSession (.error ("be12"))], []⟩

/-- A well-formed four-pane raw listing: one session `$1:s`, one window `@2:w`
at index 0, panes `%3`–`%6`, the first one active. -/
def c7rs : List RawPane :=
  [⟨['1'], ['s'], ['2'], ['w'], ['0'], ['3'], true, ['0']⟩,
   ⟨['1'], ['s'], ['2'], ['w'], ['0'], ['4'], false, ['1']⟩,
   ⟨['1'], ['s'], ['2'], ['w'], ['0'], ['5'], false, ['2']⟩,
   ⟨['1'], ['s'], ['2'], ['w'], ['0'], ['6'], false, ['3']⟩]

/-! ### Lemmas about validation (claims C5, C6) -/

/-- `checkInput` returns the error naming the first declared session with no
windows. -/
theorem checkInput_find (ss : List Session) (sBad : Session)
    (h : ss.find? (fun s => s.windows.isEmpty) = some sBad) :
    checkInput ss =
      .error (.msg (("Session " : String) ++ sBad.name ++ (" doesn't contain any windows!" : String))) := by
  induction ss with
  | nil => simp at h
  | cons s rest ih =>
      cases hw : s.windows.isEmpty with
      | true =>
          rw [List.find?_cons_of_pos _ (by simpa using hw)] at h
          obtain rfl : s = sBad := by simpa using h
          simp [checkInput, hw]
      | false =>
          rw [List.find?_cons_of_neg _ (by simp [hw])] at h
          simp only [checkInput, hw]
          exact ih h

/-- C5 (amended): for a Configuration with a Server present and an empty
Sessions list, Apply fails with the requires-at-least-one-session error and
issues no external calls. -/
theorem C5_empty_sessions (c : Configuration) (srv : Server) (wd : World)
    (hsrv : c.server = some srv) (hes : c.sessions = []) :
    (c.Apply wd).1 =
        .error (.msg ("Requiered at least single tmux session to apply configuration")) ∧
      (c.Apply wd).2.calls = wd.calls := by
  simp [Configuration.Apply, hsrv, hes]

theorem C5_empty_sessions_witness :
    ((Configuration.mk (some ⟨"srv"⟩) [] none).Apply ⟨[], []⟩).1 =
        .error (.msg ("Requiered at least single tmux session to apply configuration")) ∧
      ((Configuration.mk (some ⟨"srv"⟩) [] none).Apply ⟨[], []⟩).2.calls = [] :=
  C5_empty_sessions (Configuration.mk (some ⟨"srv"⟩) [] none) ⟨"srv"⟩ ⟨[], []⟩ rfl rfl

/-- C5 counterexample: with an empty Sessions list but no Server, Apply fails
with the server error, not the requires-at-least-one-session error, so the
claim's unconditional statement is false. -/
theorem C5_counterexample :
    ((Configuration.mk none [] none).Apply ⟨[], []⟩).1 ≠
      .error (.msg ("Requiered at least single tmux session to apply configuration")) := by
  decide

/-- C6 (amended): with a Server present, a declared session without windows
fails Apply with the error naming the first such session, before any external
call. -/
theorem C6_session_without_windows (c : Configuration) (srv : Server) (sBad : Session) (wd : World)
    (hsrv : c.server = some srv)
    (hf : c.sessions.find? (fun s => s.windows.isEmpty) = some sBad) :
    (c.Apply wd).1 =
        .error (.msg (("Session " : String) ++ sBad.name ++ (" doesn't contain any windows!" : String))) ∧
      (c.Apply wd).2.calls = wd.calls := by
  have hne : c.sessions.isEmpty = false := by
    cases hcs : c.sessions with
    | nil => rw [hcs] at hf; simp at hf
    | cons a l => simp
  have hchk := checkInput_find c.sessions sBad hf
  simp [Configuration.Apply, hsrv, hne, hchk]

theorem C6_session_without_windows_witness :
    ((Configuration.mk (some ⟨"srv"⟩) [⟨"empty", 0, "", []⟩] none).Apply ⟨[], []⟩).1 =
        .error (.msg (("Session " : String) ++ ("empty" : String) ++ (" doesn't contain any windows!" : String))) ∧
      ((Configuration.mk (some ⟨"srv"⟩) [⟨"empty", 0, "", []⟩] none).Apply ⟨[], []⟩).2.calls = [] :=
  C6_session_without_windows (Configuration.mk (some ⟨"srv"⟩) [⟨"empty", 0, "", []⟩] none)
    ⟨"srv"⟩ ⟨"empty", 0, "", []⟩ ⟨[], []⟩ rfl (by decide)

/-- C6 counterexample: a Configuration holding a windowless session but no
Server fails with the server error instead, so the claim's unconditional
statement is false. -/
theorem C6_counterexample :
    ((Configuration.mk none [⟨"empty", 0, "", []⟩] none).Apply ⟨[], []⟩).1 ≠
      .error (.msg (("Session empty doesn't contain any windows!" : String))) := by
  decide

/-! ### GetCurrentPath (claim C9) -/

/-- C9 (amended): when the command succeeds and its stdout ends with a line
terminator, `GetCurrentPath` returns the stdout with exactly that one trailing
terminator removed and no other transformation.  (When the stdout does not end
with a terminator, the code still removes its final character — see the
counterexample.) -/
theorem C9_strip_newline (p : Pane) (wd : World) (s stderr : String) (rest : List Resp)
    (h : wd.script = Resp.cmd (s ++ "\n") stderr none :: rest) :
    (Pane.GetCurrentPath p wd).1 = .ok s := by
  have hdata : (s ++ "\n").toList = s.data ++ ['\n'] := String.data_append s "\n"
  have hback : s.data.asString = s := by cases s; rfl
  simp only [Pane.GetCurrentPath, RunCmd, h, hdata]
  cases hsd : s.data with
  | nil =>
      obtain rfl : s = "" := by cases s; simp_all
      rfl
  | cons c cs =>
      show (Except.ok ((c :: cs ++ ['\n']).dropLast.asString) : Except GoError String) =
        Except.ok s
      have hdl : (c :: cs ++ ['\n']).dropLast = c :: cs := by
        have h := @List.dropLast_concat Char (c :: cs) ('\n')
        simpa using h
      rw [hdl, ← hsd, hback]

theorem C9_strip_newline_witness :
    (Pane.GetCurrentPath zeroPane ⟨[Resp.cmd ("/home/x" ++ "\n") ("") none], []⟩).1 =
      .ok ("/home/x") :=
  C9_strip_newline zeroPane ⟨[Resp.cmd ("/home/x" ++ "\n") ("") none], []⟩ ("/home/x") ("")
    [] rfl

/-- C9 counterexample: on a successful invocation whose stdout is "ab" (no
trailing line terminator), the code returns "a" — the final character is
removed even though it is not a line terminator, so the result is not the
stdout with one trailing terminator removed. -/
theorem C9_counterexample :
    (Pane.GetCurrentPath zeroPane ⟨[Resp.cmd ("ab") ("") none], []⟩).1 = .ok ("a") ∧
      ¬(("a" : String) ++ ("\n" : String) = ("ab" : String)) := by
  constructor
  · decide
  · decide

/-! ### SplitPane out-of-bounds access (claim C10) and the tolerated-split
bug (claim C2) -/

/-- C10: on the successful-split path, `SplitPane` reads the last element of
the re-queried listing without an emptiness check: whenever the re-listing
returns an empty list the access is out of bounds (a runtime panic), so
`SplitPane` is total only when the refreshed listing is non-empty. -/
theorem C10_split_empty_listing (w : Window) (wd : World) (o e : String) (rest : List Resp)
    (hs : wd.script = Resp.cmd o e none :: rest)
    (hl : (Window.ListPanes w (RunCmd (splitArgs w) wd).2).1 = .ok []) :
    (Window.SplitPane w wd).1 = .error (.crash ("index out of range")) := by
  have hrc : RunCmd (splitArgs w) wd =
      ((o, e, none), ⟨rest, wd.calls ++ [Call.runCmd (splitArgs w)]⟩) := by
    simp [RunCmd, hs]
  rw [hrc] at hl
  rcases hlp : Window.ListPanes w ⟨rest, wd.calls ++ [Call.runCmd (splitArgs w)]⟩ with ⟨lp, wd2⟩
  rw [hlp] at hl
  simp only at hl
  subst hl
  simp [Window.SplitPane, hrc, hlp]

theorem C10_split_empty_listing_witness :
    (⟨[Resp.cmd ("") ("") none, Resp.cmd ("") ("") none], []⟩ : World).script =
        Resp.cmd ("") ("") none :: [Resp.cmd ("") ("") none] ∧
      (Window.ListPanes c10win (RunCmd (splitArgs c10win) ⟨[Resp.cmd ("") ("") none, Resp.cmd ("") ("") none], []⟩).2).1 = .ok [] ∧
      (Window.SplitPane c10win ⟨[Resp.cmd ("") ("") none, Resp.cmd ("") ("") none], []⟩).1 =
        .error (.crash ("index out of range")) :=
  ⟨rfl, by decide,
    C10_split_empty_listing c10win ⟨[Resp.cmd ("") ("") none, Resp.cmd ("") ("") none], []⟩
      ("") ("") [Resp.cmd ("") ("") none] rfl (by decide)⟩

/-- C2: the code contradicts the claimed (and intended) tolerated-split
behaviour.  When the split command fails with the "exit status 1" condition and
the re-listing succeeds with two panes, `SplitPane` returns the zero-valued
pane with a nil error and the window unchanged: the pane list does NOT grow by
the last element of the re-queried listing.  (The culprit is the second
`if err_exec != nil` in window.go, which tests the split error where the
re-listing error was meant, returning before the append.) -/
theorem C2_tolerated_split_bug :
    (Window.SplitPane c2win c2wd).1 = .ok (zeroPane, c2win) ∧
      (Window.ListPanes c2win (RunCmd (splitArgs c2win) c2wd).2).1 = .ok [c2p0, c2p1] ∧
      c2win.panes = [zeroPane] ∧ zeroPane ≠ c2p1 := by
  refine ⟨by decide, by decide, rfl, by decide⟩

/-! ### Pane-count structure of Apply (claim C1) -/

/-- A successful `SplitPane` either appended its returned pane to the window's
list (successful split command) or — on the tolerated failing-command path —
returned the zero pane leaving the window untouched. -/
theorem SplitPane_ok_cases (w : Window) (wd : World) (p : Pane) (w1 : Window) (wd1 : World)
    (h : Window.SplitPane w wd = (.ok (p, w1), wd1)) :
    w1 = { w with panes := w.panes ++ [p] } ∨ (w1 = w ∧ p = zeroPane) := by
  rcases hrc : RunCmd (splitArgs w) wd with ⟨⟨o, eo, ev⟩, wda⟩
  simp only [Window.SplitPane, hrc] at h
  rcases hlp : Window.ListPanes w wda with ⟨lp, wdb⟩
  rw [hlp] at h
  by_cases hev : (ev.isSome && !strContains eo.toList ("exit status 1".toList)) = true
  · rw [if_pos hev] at h
    simp at h
  · rw [if_neg hev] at h
    cases hev2 : ev.isSome with
    | true =>
        rw [hev2] at h
        simp only [if_pos rfl] at h
        cases lp with
        | error e => simp at h
        | ok ps =>
            simp only at h
            obtain ⟨h1, h2⟩ := Prod.mk.injEq .. ▸ h
            obtain ⟨hp, hw⟩ : p = zeroPane ∧ w1 = w := by
              have := h1
              simp at this
              exact ⟨this.1.symm, this.2.symm⟩
            exact Or.inr ⟨hw, hp⟩
    | false =>
        rw [hev2] at h
        simp only [Bool.false_eq_true, if_false] at h
        cases lp with
        | error e => simp at h
        | ok ps =>
            simp only at h
            cases hgl : ps.getLast? with
            | none => rw [hgl] at h; simp at h
            | some q =>
                rw [hgl] at h
                simp at h
                exact Or.inl (by rw [← h.1.2, h.1.1])

/-- Writing `b` into the slot just past `l` of `l ++ [a]` keeps the list shape:
`(l ++ [a]).set l.length b = l ++ [b]`. -/
theorem set_last_append {α : Type} (l : List α) (a b : α) :
    (l ++ [a]).set l.length b = l ++ [b] := by
  rw [List.set_append]
  simp

/-- The split loop of `Apply` over indices `k, k+1, …, k+m-1` (all positive)
on a window holding exactly `k` panes performs `m` chained splits, ending with
the initial panes followed by the returned panes in order. -/
theorem setupPanes_chain (m : Nat) :
    ∀ (w : Window) (k : Nat) (wd : World) (w' : Window) (wd' : World),
      1 ≤ k → w.panes.length = k →
      setupPanes w (List.range' k m) wd = (.ok w', wd') →
      ∃ qs, SplitChain w wd qs w' wd' ∧ w'.panes = w.panes ++ qs ∧ qs.length = m := by
  induction m with
  | zero =>
      intro w k wd w' wd' hk hlen h
      simp only [List.range', setupPanes] at h
      obtain ⟨rfl, rfl⟩ : w = w' ∧ wd = wd' := by
        constructor
        · exact congrArg (fun x => match x.1 with | .ok v => v | .error _ => w) h
        · exact congrArg Prod.snd h
      exact ⟨[], SplitChain.nil w wd, by simp, rfl⟩
  | succ m ih =>
      intro w k wd w' wd' hk hlen h
      rw [List.range'_succ] at h
      have hk0 : k ≠ 0 := by omega
      simp only [setupPanes, hk0, if_false] at h
      rcases hsp : Window.SplitPane w wd with ⟨r, wd1⟩
      rw [hsp] at h
      cases r with
      | error e => simp at h
      | ok pr =>
          obtain ⟨p, w1⟩ := pr
          rcases SplitPane_ok_cases w wd p w1 wd1 hsp with happ | ⟨hsame, hzero⟩
          · have hlen1 : w1.panes.length = k + 1 := by rw [happ]; simp [hlen]
            have hlt : k < w1.panes.length := by omega
            simp only [if_pos hlt] at h
            have hset : w1.panes.set k p = w1.panes := by
              rw [happ]
              simp only
              rw [← hlen, set_last_append]
            have hwin : { w1 with panes := w1.panes.set k p } = w1 := by
              rw [hset]
            rw [hwin] at h
            obtain ⟨qs, hchain, hpanes, hqlen⟩ :=
              ih w1 (k + 1) wd1 w' wd' (by omega) hlen1 h
            refine ⟨p :: qs, SplitChain.cons hsp hchain, ?_, by simp [hqlen]⟩
            rw [hpanes, happ]
            simp
          · have hlen1 : w1.panes.length = k := by rw [hsame, hlen]
            have hnlt : ¬ k < w1.panes.length := by omega
            simp only [if_neg hnlt] at h
            simp at h

/-- C1: for a window declaring `N ≥ 1` panes whose refresh reports exactly the
one implicitly created pane, a successful pane stage of Apply realizes exactly
`N` panes: slot 0 is the implicit pane and slots `1 … N-1` are, positionally
and in order, the panes returned by the `N-1` chained `SplitPane` calls. -/
theorem C1_pane_structure (w : Window) (wd : World) (p0 : Pane) (w' : Window) (wd' : World)
    (hN : 1 ≤ w.panes.length)
    (hRefresh : (Window.ListPanes w wd).1 = .ok [p0])
    (hOk : paneStage w wd = (.ok w', wd')) :
    w'.panes.length = w.panes.length ∧ w'.panes.head? = some p0 ∧
      SplitChain { w with panes := [p0] } (Window.ListPanes w wd).2 w'.panes.tail w' wd' := by
  rcases hlp : Window.ListPanes w wd with ⟨lp, wd1⟩
  rw [hlp] at hRefresh
  simp only at hRefresh
  subst hRefresh
  simp only [paneStage, hlp] at hOk
  obtain ⟨n, hn⟩ : ∃ n, w.panes.length = n + 1 := ⟨w.panes.length - 1, by omega⟩
  rw [hn, List.range_eq_range'] at hOk
  have h01 : List.range' 0 (n + 1) = 0 :: List.range' 1 n := List.range'_succ 0 n 1
  rw [h01] at hOk
  simp only [setupPanes, if_pos rfl] at hOk
  obtain ⟨qs, hchain, hpanes, hqlen⟩ :=
    setupPanes_chain n { w with panes := [p0] } 1 wd1 w' wd' (by omega) (by simp) hOk
  have hpanes' : w'.panes = p0 :: qs := by simpa using hpanes
  refine ⟨?_, ?_, ?_⟩
  · rw [hpanes', hn]
    simp [hqlen]
  · rw [hpanes']
    rfl
  · rw [hpanes']
    simpa using hchain

/-! ### Call-trace lemmas (claim C8) -/

/-- `RunCmd` records exactly one raw call. -/
theorem RunCmd_world (args : List String) (wd : World) :
    ∃ l, (RunCmd args wd).2.calls = wd.calls ++ l ∧ ∀ c ∈ l, ∃ a, c = Call.runCmd a := by
  refine ⟨[Call.runCmd args], ?_, by simp⟩
  unfold RunCmd
  cases hs : wd.script with
  | nil => rfl
  | cons r rest => cases r <;> rfl

/-- The world returned by `ListPanes` is the one produced by its `RunCmd`. -/
theorem ListPanes_world (args : List String) (wd : World) :
    (ListPanes args wd).2 =
      (RunCmd ([("list-panes" : String), ("-F" : String), listPanesFormat] ++ args) wd).2 := by
  unfold ListPanes
  rcases hrc : RunCmd ([("list-panes" : String), ("-F" : String), listPanesFormat] ++ args) wd
    with ⟨⟨o, e2, ev⟩, wd'⟩
  cases ev <;> rfl

/-- `Window.ListPanes` extends the trace with raw calls only. -/
theorem WListPanes_world (w : Window) (wd : World) :
    ∃ l, (Window.ListPanes w wd).2.calls = wd.calls ++ l ∧ ∀ c ∈ l, ∃ a, c = Call.runCmd a := by
  rw [Window.ListPanes, ListPanes_world]
  exact RunCmd_world _ wd

/-- `SplitPane` extends the trace with raw calls only. -/
theorem SplitPane_world (w : Window) (wd : World) :
    ∃ l, (Window.SplitPane w wd).2.calls = wd.calls ++ l ∧ ∀ c ∈ l, ∃ a, c = Call.runCmd a := by
  obtain ⟨l1, h1, hr1⟩ := RunCmd_world (splitArgs w) wd
  rcases hrc : RunCmd (splitArgs w) wd with ⟨⟨o, eo, ev⟩, wd1⟩
  have h1' : wd1.calls = wd.calls ++ l1 := by rw [hrc] at h1; exact h1
  obtain ⟨l2, h2, hr2⟩ := WListPanes_world w wd1
  rcases hlp : Window.ListPanes w wd1 with ⟨lp, wd2⟩
  have h2' : wd2.calls = wd.calls ++ (l1 ++ l2) := by
    rw [hlp] at h2
    have h2'' : wd2.calls = wd1.calls ++ l2 := h2
    rw [h2'', h1', List.append_assoc]
  have hr12 : ∀ c ∈ l1 ++ l2, ∃ a, c = Call.runCmd a := by
    intro c hc
    rcases List.mem_append.mp hc with h | h
    · exact hr1 c h
    · exact hr2 c h
  rcases hres : Window.SplitPane w wd with ⟨res, wdf⟩
  have hres0 := hres
  simp only [Window.SplitPane, hrc, hlp] at hres
  suffices hsuff : wdf = wd1 ∨ wdf = wd2 by
    rcases hsuff with rfl | rfl
    · exact ⟨l1, h1', hr1⟩
    · exact ⟨l1 ++ l2, h2', hr12⟩
  by_cases hcond : (ev.isSome && !strContains eo.toList ("exit status 1".toList)) = true
  · rw [if_pos hcond] at hres
    exact Or.inl (congrArg Prod.snd hres).symm
  · rw [if_neg hcond] at hres
    split at hres
    · split at hres
      · exact Or.inr (congrArg Prod.snd hres).symm
      · exact Or.inr (congrArg Prod.snd hres).symm
    · split at hres
      · exact Or.inr (congrArg Prod.snd hres).symm
      · split at hres
        · exact Or.inr (congrArg Prod.snd hres).symm
        · exact Or.inr (congrArg Prod.snd hres).symm

/-- The split loop extends the trace with raw calls only. -/
theorem setupPanes_world (idxs : List Nat) :
    ∀ (w : Window) (wd : World),
      ∃ l, (setupPanes w idxs wd).2.calls = wd.calls ++ l ∧
        ∀ c ∈ l, ∃ a, c = Call.runCmd a := by
  induction idxs with
  | nil => intro w wd; exact ⟨[], by simp [setupPanes], by simp⟩
  | cons idx rest ih =>
      intro w wd
      rcases hres : setupPanes w (idx :: rest) wd with ⟨res, wdf⟩
      by_cases h0 : idx = 0
      · rw [setupPanes, if_pos h0] at hres
        obtain ⟨l, hl, hrl⟩ := ih w wd
        rw [hres] at hl
        exact ⟨l, hl, hrl⟩
      · rw [setupPanes, if_neg h0] at hres
        obtain ⟨l1, h1, hr1⟩ := SplitPane_world w wd
        split at hres
        next e wd1 heq =>
            have h1' : wd1.calls = wd.calls ++ l1 := by rw [heq] at h1; exact h1
            obtain rfl : wd1 = wdf := congrArg Prod.snd hres
            exact ⟨l1, h1', hr1⟩
        next pane w1 wd1 heq =>
            have h1' : wd1.calls = wd.calls ++ l1 := by rw [heq] at h1; exact h1
            by_cases hlt : idx < w1.panes.length
            · rw [if_pos hlt] at hres
              obtain ⟨l2, h2, hr2⟩ := ih { w1 with panes := w1.panes.set idx pane } wd1
              rw [hres] at h2
              refine ⟨l1 ++ l2, ?_, ?_⟩
              · rw [← List.append_assoc, ← h1']; exact h2
              · intro c hc
                rcases List.mem_append.mp hc with h | h
                · exact hr1 c h
                · exact hr2 c h
            · rw [if_neg hlt] at hres
              obtain rfl : wd1 = wdf := congrArg Prod.snd hres
              exact ⟨l1, h1', hr1⟩

/-- The pane stage extends the trace with raw calls only. -/
theorem paneStage_world (w : Window) (wd : World) :
    ∃ l, (paneStage w wd).2.calls = wd.calls ++ l ∧ ∀ c ∈ l, ∃ a, c = Call.runCmd a := by
  rcases hres : paneStage w wd with ⟨res, wdf⟩
  obtain ⟨l1, h1, hr1⟩ := WListPanes_world w wd
  rcases hlp : Window.ListPanes w wd with ⟨lp, wd1⟩
  have h1' : wd1.calls = wd.calls ++ l1 := by rw [hlp] at h1; exact h1
  simp only [paneStage, hlp] at hres
  cases lp with
  | ok ps =>
      have hres' : setupPanes { w with panes := ps } (List.range w.panes.length) wd1 =
          (res, wdf) := hres
      obtain ⟨l2, h2, hr2⟩ :=
        setupPanes_world (List.range w.panes.length) { w with panes := ps } wd1
      rw [hres'] at h2
      refine ⟨l1 ++ l2, ?_, ?_⟩
      · rw [← List.append_assoc, ← h1']; exact h2
      · intro c hc
        rcases List.mem_append.mp hc with h | h
        · exact hr1 c h
        · exact hr2 c h
  | error e =>
      have hres' : setupPanes { w with panes := [] } (List.range w.panes.length) wd1 =
          (res, wdf) := hres
      obtain ⟨l2, h2, hr2⟩ :=
        setupPanes_world (List.range w.panes.length) { w with panes := [] } wd1
      rw [hres'] at h2
      refine ⟨l1 ++ l2, ?_, ?_⟩
      · rw [← List.append_assoc, ← h1']; exact h2
      · intro c hc
        rcases List.mem_append.mp hc with h | h
        · exact hr1 c h
        · exact hr2 c h

/-- The layout stage extends the trace with raw calls only. -/
theorem layoutStage_world (w : Window) (wd : World) :
    ∃ l, (layoutStage w wd).2.calls = wd.calls ++ l ∧ ∀ c ∈ l, ∃ a, c = Call.runCmd a := by
  rcases hres : layoutStage w wd with ⟨res, wdf⟩
  by_cases hl : w.layout = ""
  · rw [layoutStage, if_pos hl] at hres
    obtain rfl : wd = wdf := congrArg Prod.snd hres
    exact ⟨[], by simp, by simp⟩
  · rw [layoutStage, if_neg hl] at hres
    obtain ⟨l1, h1, hr1⟩ :=
      RunCmd_world [("select-layout" : String), ("-t" : String), toString w.id, w.layout] wd
    rcases hrc : RunCmd [("select-layout" : String), ("-t" : String), toString w.id, w.layout] wd
      with ⟨⟨o, eo, ev⟩, wd1⟩
    have h1' : wd1.calls = wd.calls ++ l1 := by rw [hrc] at h1; exact h1
    rw [hrc] at hres
    cases ev with
    | none =>
        obtain rfl : wd1 = wdf := congrArg Prod.snd hres
        exact ⟨l1, h1', hr1⟩
    | some m =>
        obtain rfl : wd1 = wdf := congrArg Prod.snd hres
        exact ⟨l1, h1', hr1⟩

/-- The split loop only changes the window's pane list, never its name or id. -/
theorem setupPanes_preserve (idxs : List Nat) :
    ∀ (w : Window) (wd : World) (w' : Window) (wd' : World),
      setupPanes w idxs wd = (.ok w', wd') → w'.name = w.name ∧ w'.id = w.id := by
  induction idxs with
  | nil =>
      intro w wd w' wd' h
      simp only [setupPanes] at h
      obtain ⟨h1, h2⟩ := Prod.mk.injEq .. ▸ h
      constructor
      · exact congrArg Window.name (by simpa using h1.symm)
      · exact congrArg Window.id (by simpa using h1.symm)
  | cons idx rest ih =>
      intro w wd w' wd' h
      by_cases h0 : idx = 0
      · rw [setupPanes, if_pos h0] at h
        exact ih w wd w' wd' h
      · rw [setupPanes, if_neg h0] at h
        split at h
        next e wd1 heq => simp at h
        next pane w1 wd1 heq =>
            by_cases hlt : idx < w1.panes.length
            · rw [if_pos hlt] at h
              obtain ⟨ha, hb⟩ := ih _ _ _ _ h
              have hw1 : w1.name = w.name ∧ w1.id = w.id := by
                rcases SplitPane_ok_cases w wd pane w1 wd1 heq with happ | ⟨hsame, _⟩
                · rw [happ]; exact ⟨rfl, rfl⟩
                · rw [hsame]; exact ⟨rfl, rfl⟩
              exact ⟨ha.trans hw1.1, hb.trans hw1.2⟩
            · rw [if_neg hlt] at h
              simp at h

/-- The pane stage only changes the window's pane list, never its name or id. -/
theorem paneStage_preserve (w : Window) (wd : World) (w' : Window) (wd' : World)
    (h : paneStage w wd = (.ok w', wd')) : w'.name = w.name ∧ w'.id = w.id := by
  rcases hlp : Window.ListPanes w wd with ⟨lp, wd1⟩
  simp only [paneStage, hlp] at h
  cases lp with
  | ok ps =>
      have h' : setupPanes { w with panes := ps } (List.range w.panes.length) wd1 =
          (.ok w', wd') := h
      exact setupPanes_preserve (List.range w.panes.length) { w with panes := ps } wd1 w' wd' h'
  | error e =>
      have h' : setupPanes { w with panes := [] } (List.range w.panes.length) wd1 =
          (.ok w', wd') := h
      exact setupPanes_preserve (List.range w.panes.length) { w with panes := [] } wd1 w' wd' h'

/-- The directory-inheritance step leaves the window's name unchanged. -/
theorem inheritDir_name (sdir : String) (w : Window) : (inheritDir sdir w).name = w.name := by
  unfold inheritDir
  split <;> rfl

/-- The window tail (tagging, panes, layout) extends the trace with raw calls
only. -/
theorem windowTail_world (sname : String) (sid : Int) (w1 : Window) (wd1 : World) :
    ∃ l, (windowTail sname sid w1 wd1).2.calls = wd1.calls ++ l ∧
      ∀ c ∈ l, ∃ a, c = Call.runCmd a := by
  rcases hres : windowTail sname sid w1 wd1 with ⟨res, wdf⟩
  obtain ⟨l1, h1, hr1⟩ := paneStage_world { w1 with sessionName := sname, sessionId := sid } wd1
  rw [windowTail] at hres
  split at hres
  next e wd2 heq =>
      have h1' : wd2.calls = wd1.calls ++ l1 := by rw [heq] at h1; exact h1
      obtain rfl : wd2 = wdf := congrArg Prod.snd hres
      exact ⟨l1, h1', hr1⟩
  next w3 wd2 heq =>
      have h1' : wd2.calls = wd1.calls ++ l1 := by rw [heq] at h1; exact h1
      obtain ⟨l2, h2, hr2⟩ := layoutStage_world w3 wd2
      have hcomb : ∀ c ∈ l1 ++ l2, ∃ a, c = Call.runCmd a := by
        intro c hc
        rcases List.mem_append.mp hc with h | h
        · exact hr1 c h
        · exact hr2 c h
      split at hres
      next e2 wd3 heq2 =>
          have h2' : wd3.calls = wd2.calls ++ l2 := by rw [heq2] at h2; exact h2
          obtain rfl : wd3 = wdf := congrArg Prod.snd hres
          exact ⟨l1 ++ l2, by rw [← List.append_assoc, ← h1', ← h2'], hcomb⟩
      next u wd3 heq2 =>
          have h2' : wd3.calls = wd2.calls ++ l2 := by rw [heq2] at h2; exact h2
          obtain rfl : wd3 = wdf := congrArg Prod.snd hres
          exact ⟨l1 ++ l2, by rw [← List.append_assoc, ← h1', ← h2'], hcomb⟩

/-- A successful window tail returns a window with the name and id it was given
(only the session tags and panes change). -/
theorem windowTail_ok (sname : String) (sid : Int) (w1 : Window) (wd1 : World)
    (w' : Window) (wd' : World) (h : windowTail sname sid w1 wd1 = (.ok w', wd')) :
    w'.name = w1.name ∧ w'.id = w1.id := by
  rw [windowTail] at h
  split at h
  next e wd2 heq => simp at h
  next w3 wd2 heq =>
      split at h
      next e2 wd3 heq2 => simp at h
      next u wd3 heq2 =>
          obtain ⟨hw, _⟩ : Except.ok w3 = Except.ok w' ∧ wd3 = wd' := by
            constructor
            · exact congrArg Prod.fst h
            · exact congrArg Prod.snd h
          obtain rfl : w3 = w' := by simpa using hw
          exact paneStage_preserve { w1 with sessionName := sname, sessionId := sid } wd1
            w3 wd2 heq

/-- C8: during Apply's window loop, a declared window whose name equals the
initial window's is realized without any window-creation call and with Id 0;
any other declared window causes one window-creation call, and on success the
realized name and id returned by that call are the ones captured onto the
model. -/
theorem C8_window_creation (sname : String) (sid : Int) (sdir : String) (initialName : String)
    (w : Window) (wd : World) :
    (w.name = initialName →
      (∀ c ∈ (setupWindow sname sid sdir initialName w wd).2.calls,
          c ∈ wd.calls ∨ ∃ a, c = Call.runCmd a) ∧
      (∀ w' wd', setupWindow sname sid sdir initialName w wd = (.ok w', wd') → w'.id = 0)) ∧
    (w.name ≠ initialName →
      ∀ (r : WindowRec) (rest : List Resp), wd.script = Resp.newWindow (.ok r) :: rest →
        Call.newWindow sname w.name (windowArgs (inheritDir sdir w)) ∈
            (setupWindow sname sid sdir initialName w wd).2.calls ∧
        (∀ w' wd', setupWindow sname sid sdir initialName w wd = (.ok w', wd') →
          w'.name = r.name ∧ w'.id = r.id)) := by
  constructor
  · intro hname
    have hcs : createStage sname initialName (inheritDir sdir w) wd =
        (.ok { inheritDir sdir w with id := 0 }, wd) := by
      rw [createStage, if_pos (by rw [inheritDir_name]; exact hname)]
    have hsw : setupWindow sname sid sdir initialName w wd =
        windowTail sname sid { inheritDir sdir w with id := 0 } wd := by
      rw [setupWindow, hcs]
    obtain ⟨l, hl, hrl⟩ := windowTail_world sname sid { inheritDir sdir w with id := 0 } wd
    constructor
    · intro c hc
      rw [hsw, hl] at hc
      rcases List.mem_append.mp hc with h | h
      · exact Or.inl h
      · exact Or.inr (hrl c h)
    · intro w' wd' heq
      rw [hsw] at heq
      exact (windowTail_ok sname sid { inheritDir sdir w with id := 0 } wd w' wd' heq).2
  · intro hname r rest hscript
    have hcs : createStage sname initialName (inheritDir sdir w) wd =
        (.ok { inheritDir sdir w with name := r.name, id := r.id },
          ⟨rest, wd.calls ++ [Call.newWindow sname w.name (windowArgs (inheritDir sdir w))]⟩) := by
      rw [createStage, if_neg (by rw [inheritDir_name]; exact hname)]
      rw [inheritDir_name]
      simp only [newWindowOp, hscript]
    have hsw : setupWindow sname sid sdir initialName w wd =
        windowTail sname sid { inheritDir sdir w with name := r.name, id := r.id }
          ⟨rest, wd.calls ++ [Call.newWindow sname w.name (windowArgs (inheritDir sdir w))]⟩ := by
      rw [setupWindow, hcs]
    obtain ⟨l, hl, hrl⟩ :=
      windowTail_world sname sid { inheritDir sdir w with name := r.name, id := r.id }
        ⟨rest, wd.calls ++ [Call.newWindow sname w.name (windowArgs (inheritDir sdir w))]⟩
    constructor
    · rw [hsw, hl]
      simp
    · intro w' wd' heq
      rw [hsw] at heq
      have hok := windowTail_ok sname sid
        { inheritDir sdir w with name := r.name, id := r.id }
        ⟨rest, wd.calls ++ [Call.newWindow sname w.name (windowArgs (inheritDir sdir w))]⟩
        w' wd' heq
      exact ⟨hok.1, hok.2⟩

theorem C8_window_creation_witness :
    ((∀ c ∈ (setupWindow ("s") 1 ("") ("w") c8winA c8wdA).2.calls,
        c ∈ c8wdA.calls ∨ ∃ a, c = Call.runCmd a) ∧
      (∀ w' wd', setupWindow ("s") 1 ("") ("w") c8winA c8wdA = (.ok w', wd') → w'.id = 0)) ∧
    (Call.newWindow ("s") ("v") (windowArgs (inheritDir ("") c8winB)) ∈
        (setupWindow ("s") 1 ("") ("w") c8winB c8wdB).2.calls ∧
      (∀ w' wd', setupWindow ("s") 1 ("") ("w") c8winB c8wdB = (.ok w', wd') →
        w'.name = ("v2") ∧ w'.id = 5)) :=
  ⟨(C8_window_creation ("s") 1 ("") ("w") c8winA c8wdA).1 rfl,
    (C8_window_creation ("s") 1 ("") ("w") c8winB c8wdB).2 (by decide) ⟨"v2", 5⟩
      [Resp.cmd ("$1:s:@2:v2:0:%3:1:0\n") ("") none] rfl⟩

/-! ### Error-propagation lemmas (claim C4) -/

/-- A passing `checkInput` means every declared session has windows. -/
theorem checkInput_ok_mem (ss : List Session) (h : checkInput ss = .ok ()) :
    ∀ s ∈ ss, s.windows ≠ [] := by
  induction ss with
  | nil => simp
  | cons a rest ih =>
      intro s hs
      rw [checkInput] at h
      by_cases hw : a.windows.isEmpty = true
      · rw [if_pos hw] at h; simp at h
      · rw [if_neg hw] at h
        rcases List.mem_cons.mp hs with rfl | hmem
        · simpa [List.isEmpty_iff] using hw
        · exact ih h s hmem

/-- A failing split command without the tolerated condition makes `SplitPane`
return that command's error. -/
theorem SplitPane_cmd_error (w : Window) (wd : World) (o eo m : String) (rest : List Resp)
    (hs : wd.script = Resp.cmd o eo (some m) :: rest)
    (hc : strContains eo.toList ("exit status 1".toList) = false) :
    (Window.SplitPane w wd).1 = .error (.msg m) := by
  have hrc : RunCmd (splitArgs w) wd =
      ((o, eo, some m), ⟨rest, wd.calls ++ [Call.runCmd (splitArgs w)]⟩) := by
    simp [RunCmd, hs]
  rcases hres : Window.SplitPane w wd with ⟨res, wdf⟩
  simp only [Window.SplitPane, hrc] at hres
  rw [if_pos (by simp; exact hc)] at hres
  have hfst := congrArg Prod.fst hres
  simp at hfst ⊢
  exact hfst.symm

/-- A failing `SplitPane` aborts the split loop with its error. -/
theorem setupPanes_split_error (w : Window) (wd : World) (idx : Nat) (rest : List Nat)
    (e : GoError) (wd1 : World) (h0 : idx ≠ 0)
    (hsp : Window.SplitPane w wd = (.error e, wd1)) :
    setupPanes w (idx :: rest) wd = (.error e, wd1) := by
  rw [setupPanes, if_neg h0, hsp]

/-- A failing pane stage aborts the window tail with its error. -/
theorem windowTail_paneStage_error (sname : String) (sid : Int) (w1 : Window) (wd1 : World)
    (e : GoError) (wd2 : World)
    (hps : paneStage { w1 with sessionName := sname, sessionId := sid } wd1 = (.error e, wd2)) :
    windowTail sname sid w1 wd1 = (.error e, wd2) := by
  rw [windowTail, hps]

/-- A failing layout command makes the layout stage return its error. -/
theorem layoutStage_cmd_error (w : Window) (wd : World) (o eo m : String) (rest : List Resp)
    (hl : w.layout ≠ "") (hs : wd.script = Resp.cmd o eo (some m) :: rest) :
    (layoutStage w wd).1 = .error (.msg m) := by
  have hrc : RunCmd [("select-layout" : String), ("-t" : String), toString w.id, w.layout] wd =
      ((o, eo, some m),
        ⟨rest, wd.calls ++
          [Call.runCmd [("select-layout" : String), ("-t" : String), toString w.id, w.layout]]⟩) := by
    simp [RunCmd, hs]
  rw [layoutStage, if_neg hl, hrc]

/-- A failing layout stage aborts the window tail with its error. -/
theorem windowTail_layout_error (sname : String) (sid : Int) (w1 : Window) (wd1 : World)
    (w3 : Window) (wd2 : World) (e : GoError) (wd3 : World)
    (hps : paneStage { w1 with sessionName := sname, sessionId := sid } wd1 = (.ok w3, wd2))
    (hls : layoutStage w3 wd2 = (.error e, wd3)) :
    windowTail sname sid w1 wd1 = (.error e, wd3) := by
  rcases hres : windowTail sname sid w1 wd1 with ⟨res, wdf⟩
  simp only [windowTail, hps, hls] at hres
  exact hres.symm

/-- A failing window-creation response makes `setupWindow` return its error. -/
theorem setupWindow_create_error (sname : String) (sid : Int) (sdir : String)
    (initialName : String) (w : Window) (wd : World) (m : String) (rest : List Resp)
    (hname : w.name ≠ initialName)
    (hs : wd.script = Resp.newWindow (.error m) :: rest) :
    (setupWindow sname sid sdir initialName w wd).1 = .error (.msg m) := by
  have hcs : createStage sname initialName (inheritDir sdir w) wd =
      (.error (.msg m),
        ⟨rest, wd.calls ++ [Call.newWindow sname w.name (windowArgs (inheritDir sdir w))]⟩) := by
    rw [createStage, if_neg (by rw [inheritDir_name]; exact hname), inheritDir_name]
    simp only [newWindowOp, hs]
  rw [setupWindow, hcs]

/-- A failing window aborts the window loop with its error. -/
theorem applyWindows_head_error (sname : String) (sid : Int) (sdir : String)
    (initialName : String) (w : Window) (ws : List Window) (wd : World)
    (e : GoError) (wd1 : World)
    (h : setupWindow sname sid sdir initialName w wd = (.error e, wd1)) :
    applyWindows sname sid sdir initialName (w :: ws) wd = (.error e, wd1) := by
  rw [applyWindows, h]

/-- A failure among the later windows propagates through the window loop. -/
theorem applyWindows_tail_error (sname : String) (sid : Int) (sdir : String)
    (initialName : String) (w : Window) (ws : List Window) (wd : World)
    (w' : Window) (wd1 : World) (e : GoError) (wd2 : World)
    (h : setupWindow sname sid sdir initialName w wd = (.ok w', wd1))
    (ht : applyWindows sname sid sdir initialName ws wd1 = (.error e, wd2)) :
    applyWindows sname sid sdir initialName (w :: ws) wd = (.error e, wd2) := by
  rcases hres : applyWindows sname sid sdir initialName (w :: ws) wd with ⟨res, wdf⟩
  simp only [applyWindows, h, ht] at hres
  exact hres.symm

/-- A failing window loop aborts the session body with its error. -/
theorem applySession_windows_error (isActive : Bool) (s : Session) (wd : World)
    (iw : Window) (r : SessionRec) (wd1 : World) (e : GoError) (wd3 : World)
    (hw : s.windows.head? = some iw)
    (hns : newSessionOp s.name ([("-n" : String), iw.name] ++
        (if s.startDirectory ≠ "" then [("-c" : String), s.startDirectory] else [])) wd =
      (.ok r, wd1))
    (haw : applyWindows r.name r.id s.startDirectory iw.name s.windows
        (if isActive then (attachSessionOp r.name wd1).2 else wd1) = (.error e, wd3)) :
    applySession isActive s wd = (.error e, wd3) := by
  have haw' : applyWindows ({ s with name := r.name, id := r.id } : Session).name
      ({ s with name := r.name, id := r.id } : Session).id
      ({ s with name := r.name, id := r.id } : Session).startDirectory iw.name
      ({ s with name := r.name, id := r.id } : Session).windows
      (if isActive then
          (attachSessionOp ({ s with name := r.name, id := r.id } : Session).name wd1).2
        else wd1) = (.error e, wd3) := haw
  rcases hres : applySession isActive s wd with ⟨res, wdf⟩
  simp only [applySession, hw, hns, haw'] at hres
  exact hres.symm

/-- A failing session body aborts the session loop with its error. -/
theorem applySessions_head_error (activeIdx : Option Nat) (si : Nat) (s : Session)
    (rest : List Session) (wd : World) (e : GoError) (wd1 : World)
    (h : applySession (activeIdx = some si) s wd = (.error e, wd1)) :
    applySessions activeIdx si (s :: rest) wd = (.error e, wd1) := by
  rw [applySessions, h]

/-- A failure among the later sessions propagates through the session loop. -/
theorem applySessions_tail_error (activeIdx : Option Nat) (si : Nat) (s : Session)
    (rest : List Session) (wd : World) (s' : Session) (wd1 : World) (e : GoError) (wd2 : World)
    (h : applySession (activeIdx = some si) s wd = (.ok s', wd1))
    (ht : applySessions activeIdx (si + 1) rest wd1 = (.error e, wd2)) :
    applySessions activeIdx si (s :: rest) wd = (.error e, wd2) := by
  rcases hres : applySessions activeIdx si (s :: rest) wd with ⟨res, wdf⟩
  simp only [applySessions, h, ht] at hres
  exact hres.symm

/-- A failing session loop aborts `Apply` with its error. -/
theorem apply_applySessions_error (c : Configuration) (srv : Server) (wd : World)
    (e : GoError) (wd1 : World)
    (hsrv : c.server = some srv) (hne : c.sessions ≠ [])
    (hchk : checkInput c.sessions = .ok ())
    (has : applySessions c.activeSession 0 c.sessions wd = (.error e, wd1)) :
    (c.Apply wd).1 = .error e := by
  have hempty : c.sessions.isEmpty = false := by simpa [List.isEmpty_iff] using hne
  simp only [Configuration.Apply, hsrv, hempty, hchk, has]
  simp

/-- A failing session-creation response for the first session makes `Apply`
return its error. -/
theorem apply_newSession_error (c : Configuration) (srv : Server) (wd : World)
    (m : String) (rest : List Resp)
    (hsrv : c.server = some srv) (hne : c.sessions ≠ [])
    (hchk : checkInput c.sessions = .ok ())
    (hs : wd.script = Resp.newSession (.error m) :: rest) :
    (c.Apply wd).1 = .error (.msg m) := by
  obtain ⟨s, ss, hss⟩ : ∃ s ss, c.sessions = s :: ss := by
    cases hcs : c.sessions with
    | nil => exact absurd hcs hne
    | cons a l => exact ⟨a, l, rfl⟩
  have hwne : s.windows ≠ [] :=
    checkInput_ok_mem _ hchk s (by rw [hss]; exact List.mem_cons_self ..)
  obtain ⟨iw, iws, hiw⟩ : ∃ iw iws, s.windows = iw :: iws := by
    cases hcw : s.windows with
    | nil => exact absurd hcw hwne
    | cons a l => exact ⟨a, l, rfl⟩
  have hh : s.windows.head? = some iw := by rw [hiw]; rfl
  have hns : newSessionOp s.name ([("-n" : String), iw.name] ++
      (if s.startDirectory ≠ "" then [("-c" : String), s.startDirectory] else [])) wd =
      (.error (.msg m),
        ⟨rest, wd.calls ++ [Call.newSession s.name ([("-n" : String), iw.name] ++
          (if s.startDirectory ≠ "" then [("-c" : String), s.startDirectory] else []))]⟩) := by
    simp only [newSessionOp, hs]
  have hsess : applySession (c.activeSession = some 0) s wd =
      (.error (.msg m),
        ⟨rest, wd.calls ++ [Call.newSession s.name ([("-n" : String), iw.name] ++
          (if s.startDirectory ≠ "" then [("-c" : String), s.startDirectory] else []))]⟩) := by
    rcases hres : applySession (c.activeSession = some 0) s wd with ⟨res, wdf⟩
    simp only [applySession, hh, hns] at hres
    exact hres.symm
  have hloop := applySessions_head_error c.activeSession 0 s ss wd (.msg m) _ hsess
  have hall : applySessions c.activeSession 0 c.sessions wd =
      (.error (.msg m),
        ⟨rest, wd.calls ++ [Call.newSession s.name ([("-n" : String), iw.name] ++
          (if s.startDirectory ≠ "" then [("-c" : String), s.startDirectory] else []))]⟩) := by
    rw [hss]
    exact hloop
  exact apply_applySessions_error c srv wd (.msg m) _ hsrv hne hchk hall

/-- C4 (amended): apart from the four swallowed cases — unmatched parser lines,
the tolerated "exit status 1" split condition, the pane-list refresh whose
error Apply explicitly discards, and AttachSession whose return value Apply
ignores — every error returned by a sub-operation is propagated: a failing
session creation reaches Apply's caller; a failing window creation fails
setupWindow; a failing non-tolerated split command fails SplitPane, which fails
the split loop, which fails the window tail; a failing layout command fails the
layout stage, which fails the window tail; window failures propagate through
the window loop into the session body, session failures propagate through the
session loop, and a failing session loop fails Apply with the same error. -/
theorem C4_error_propagation :
    (∀ (c : Configuration) (srv : Server) (wd : World) (m : String) (rest : List Resp),
        c.server = some srv → c.sessions ≠ [] → checkInput c.sessions = .ok () →
        wd.script = Resp.newSession (.error m) :: rest →
        (c.Apply wd).1 = .error (.msg m)) ∧
    (∀ (sname : String) (sid : Int) (sdir initialName : String) (w : Window) (wd : World)
        (m : String) (rest : List Resp),
        w.name ≠ initialName → wd.script = Resp.newWindow (.error m) :: rest →
        (setupWindow sname sid sdir initialName w wd).1 = .error (.msg m)) ∧
    (∀ (w : Window) (wd : World) (o eo m : String) (rest : List Resp),
        wd.script = Resp.cmd o eo (some m) :: rest →
        strContains eo.toList ("exit status 1".toList) = false →
        (Window.SplitPane w wd).1 = .error (.msg m)) ∧
    (∀ (w : Window) (wd : World) (idx : Nat) (rest : List Nat) (e : GoError) (wd1 : World),
        idx ≠ 0 → Window.SplitPane w wd = (.error e, wd1) →
        setupPanes w (idx :: rest) wd = (.error e, wd1)) ∧
    (∀ (sname : String) (sid : Int) (w1 : Window) (wd1 : World) (e : GoError) (wd2 : World),
        paneStage { w1 with sessionName := sname, sessionId := sid } wd1 = (.error e, wd2) →
        windowTail sname sid w1 wd1 = (.error e, wd2)) ∧
    (∀ (w : Window) (wd : World) (o eo m : String) (rest : List Resp),
        w.layout ≠ "" → wd.script = Resp.cmd o eo (some m) :: rest →
        (layoutStage w wd).1 = .error (.msg m)) ∧
    (∀ (sname : String) (sid : Int) (w1 : Window) (wd1 : World) (w3 : Window) (wd2 : World)
        (e : GoError) (wd3 : World),
        paneStage { w1 with sessionName := sname, sessionId := sid } wd1 = (.ok w3, wd2) →
        layoutStage w3 wd2 = (.error e, wd3) →
        windowTail sname sid w1 wd1 = (.error e, wd3)) ∧
    (∀ (sname : String) (sid : Int) (sdir initialName : String) (w : Window) (ws : List Window)
        (wd : World) (e : GoError) (wd1 : World),
        setupWindow sname sid sdir initialName w wd = (.error e, wd1) →
        applyWindows sname sid sdir initialName (w :: ws) wd = (.error e, wd1)) ∧
    (∀ (sname : String) (sid : Int) (sdir initialName : String) (w : Window) (ws : List Window)
        (wd : World) (w' : Window) (wd1 : World) (e : GoError) (wd2 : World),
        setupWindow sname sid sdir initialName w wd = (.ok w', wd1) →
        applyWindows sname sid sdir initialName ws wd1 = (.error e, wd2) →
        applyWindows sname sid sdir initialName (w :: ws) wd = (.error e, wd2)) ∧
    (∀ (isActive : Bool) (s : Session) (wd : World) (iw : Window) (r : SessionRec)
        (wd1 : World) (e : GoError) (wd3 : World),
        s.windows.head? = some iw →
        newSessionOp s.name ([("-n" : String), iw.name] ++
            (if s.startDirectory ≠ "" then [("-c" : String), s.startDirectory] else [])) wd =
          (.ok r, wd1) →
        applyWindows r.name r.id s.startDirectory iw.name s.windows
            (if isActive then (attachSessionOp r.name wd1).2 else wd1) = (.error e, wd3) →
        applySession isActive s wd = (.error e, wd3)) ∧
    (∀ (activeIdx : Option Nat) (si : Nat) (s : Session) (rest : List Session) (wd : World)
        (e : GoError) (wd1 : World),
        applySession (activeIdx = some si) s wd = (.error e, wd1) →
        applySessions activeIdx si (s :: rest) wd = (.error e, wd1)) ∧
    (∀ (activeIdx : Option Nat) (si : Nat) (s : Session) (rest : List Session) (wd : World)
        (s' : Session) (wd1 : World) (e : GoError) (wd2 : World),
        applySession (activeIdx = some si) s wd = (.ok s', wd1) →
        applySessions activeIdx (si + 1) rest wd1 = (.error e, wd2) →
        applySessions activeIdx si (s :: rest) wd = (.error e, wd2)) ∧
    (∀ (c : Configuration) (srv : Server) (wd : World) (e : GoError) (wd1 : World),
        c.server = some srv → c.sessions ≠ [] → checkInput c.sessions = .ok () →
        applySessions c.activeSession 0 c.sessions wd = (.error e, wd1) →
        (c.Apply wd).1 = .error e) :=
  ⟨apply_newSession_error, setupWindow_create_error, SplitPane_cmd_error,
    setupPanes_split_error, windowTail_paneStage_error, layoutStage_cmd_error,
    windowTail_layout_error, applyWindows_head_error, applyWindows_tail_error,
    applySession_windows_error, applySessions_head_error, applySessions_tail_error,
    apply_applySessions_error⟩

/-- C4 counterexample: in a run where the pane-list refresh command fails and
the attach operation fails, Apply still returns success — both errors are
swallowed, contradicting the claim that only the parser-skip and the
already-exists split condition are. -/
theorem C4_counterexample :
    (Configuration.Apply c4cfgSwallow c4wdSwallow).1.toOption.isSome = true ∧
      (Window.ListPanes { c4winIW with sessionName := ("t"), sessionId := 7 }
          ⟨[Resp.cmd ("") ("refresh failed") (some ("refresh failed"))], []⟩).1 =
        .error (.msg ("refresh failed")) ∧
      (attachSessionOp ("t")
          ⟨[Resp.attachResp (.error ("attach failed")),
            Resp.cmd ("") ("refresh failed") (some ("refresh failed"))], []⟩).1 =
        .error (.msg ("attach failed")) := by
  refine ⟨by decide, by decide, by decide⟩

theorem C4_error_propagation_witness :
    ((Configuration.Apply c4cfgA c4wdP1).1 = .error (.msg ("be1"))) ∧
    ((setupWindow ("t") 1 ("") ("w") c4winX c4wdP2).1 = .error (.msg ("be2"))) ∧
    ((Window.SplitPane c4winIW c4wdP3).1 = .error (.msg ("be3"))) ∧
    (∃ wd1, Window.SplitPane c4winIW c4wdP3 = (.error (.msg ("be3")), wd1) ∧
      setupPanes c4winIW [1] c4wdP3 = (.error (.msg ("be3")), wd1)) ∧
    (∃ wd2, paneStage { c4win2 with sessionName := ("t"), sessionId := 1 } c4wdP5 =
        (.error (.msg ("be5")), wd2) ∧
      windowTail ("t") 1 c4win2 c4wdP5 = (.error (.msg ("be5")), wd2)) ∧
    ((layoutStage c4winL c4wdP6).1 = .error (.msg ("be6"))) ∧
    (∃ w3 wd2 wd3, paneStage { c4winL with sessionName := ("t"), sessionId := 1 } c4wdP7 =
        (.ok w3, wd2) ∧
      layoutStage w3 wd2 = (.error (.msg ("be7")), wd3) ∧
      windowTail ("t") 1 c4winL c4wdP7 = (.error (.msg ("be7")), wd3)) ∧
    (∃ wd1, setupWindow ("t") 1 ("") ("w") c4winX c4wdP2 = (.error (.msg ("be2")), wd1) ∧
      applyWindows ("t") 1 ("") ("w") [c4winX] c4wdP2 = (.error (.msg ("be2")), wd1)) ∧
    (∃ w' wd1 wd2, setupWindow ("t") 1 ("") ("w") c4winIW c4wdP9 = (.ok w', wd1) ∧
      applyWindows ("t") 1 ("") ("w") [c4winX] wd1 = (.error (.msg ("be2")), wd2) ∧
      applyWindows ("t") 1 ("") ("w") [c4winIW, c4winX] c4wdP9 = (.error (.msg ("be2")), wd2)) ∧
    (∃ wd1 wd3,
      newSessionOp c4sess2.name ([("-n" : String), c4win2.name] ++
          (if c4sess2.startDirectory ≠ "" then [("-c" : String), c4sess2.startDirectory]
            else [])) c4wdP10 = (.ok ⟨"t", 3⟩, wd1) ∧
      applyWindows (("t") : String) (3 : Int) c4sess2.startDirectory c4win2.name c4sess2.windows
          (if false then (attachSessionOp ("t") wd1).2 else wd1) = (.error (.msg ("be3")), wd3) ∧
      applySession false c4sess2 c4wdP10 = (.error (.msg ("be3")), wd3)) ∧
    (∃ wd1, applySession ((none : Option Nat) = some 0) c4sess2 c4wdP10 =
        (.error (.msg ("be3")), wd1) ∧
      applySessions none 0 [c4sess2] c4wdP10 = (.error (.msg ("be3")), wd1)) ∧
    (∃ s' wd1 wd2, applySession ((none : Option Nat) = some 0) c4sess1 c4wdP12 = (.ok s', wd1) ∧
      applySessions none 1 [c4sess2] wd1 = (.error (.msg ("be12")), wd2) ∧
      applySessions none 0 [c4sess1, c4sess2] c4wdP12 = (.error (.msg ("be12")), wd2)) ∧
    (∃ wd1, applySessions c4cfgA.activeSession 0 c4cfgA.sessions c4wdP10 =
        (.error (.msg ("be3")), wd1) ∧
      (Configuration.Apply c4cfgA c4wdP10).1 = .error (.msg ("be3"))) :=
  ⟨C4_error_propagation.1 c4cfgA ⟨"srv"⟩ c4wdP1 ("be1") [] rfl (by decide) (by decide) rfl,
    C4_error_propagation.2.1 ("t") 1 ("") ("w") c4winX c4wdP2 ("be2") [] (by decide) rfl,
    C4_error_propagation.2.2.1 c4winIW c4wdP3 ("") ("boom") ("be3") [] rfl (by decide),
    ⟨_, rfl, C4_error_propagation.2.2.2.1 c4winIW c4wdP3 1 [] (.msg ("be3")) _ (by decide) rfl⟩,
    ⟨_, rfl, C4_error_propagation.2.2.2.2.1 ("t") 1 c4win2 c4wdP5 (.msg ("be5")) _ rfl⟩,
    C4_error_propagation.2.2.2.2.2.1 c4winL c4wdP6 ("") ("") ("be6") [] (by decide) rfl,
    ⟨_, _, _, rfl, rfl,
      C4_error_propagation.2.2.2.2.2.2.1 ("t") 1 c4winL c4wdP7 _ _ (.msg ("be7")) _ rfl rfl⟩,
    ⟨_, rfl, C4_error_propagation.2.2.2.2.2.2.2.1 ("t") 1 ("") ("w") c4winX [] c4wdP2
      (.msg ("be2")) _ rfl⟩,
    ⟨_, _, _, rfl, rfl, C4_error_propagation.2.2.2.2.2.2.2.2.1 ("t") 1 ("") ("w") c4winIW
      [c4winX] c4wdP9 _ _ (.msg ("be2")) _ rfl rfl⟩,
    ⟨_, _, rfl, rfl, C4_error_propagation.2.2.2.2.2.2.2.2.2.1 false c4sess2 c4wdP10 c4win2
      ⟨"t", 3⟩ _ (.msg ("be3")) _ rfl rfl rfl⟩,
    ⟨_, rfl, C4_error_propagation.2.2.2.2.2.2.2.2.2.2.1 none 0 c4sess2 [] c4wdP10
      (.msg ("be3")) _ rfl⟩,
    ⟨_, _, _, rfl, rfl, C4_error_propagation.2.2.2.2.2.2.2.2.2.2.2.1 none 0 c4sess1 [c4sess2]
      c4wdP12 _ _ (.msg ("be12")) _ rfl rfl⟩,
    ⟨_, rfl, C4_error_propagation.2.2.2.2.2.2.2.2.2.2.2.2 c4cfgA ⟨"srv"⟩ c4wdP10
      (.msg ("be3")) _ rfl (by decide) (by decide) rfl⟩⟩

/-! ### Fatal numeric-parse errors (claim C3) -/

/-- A line with a failing numeric field makes `parseLine` return an error. -/
theorem parseLine_error_of_bad (l : List Char) (hbad : badNumericLine l = true) :
    ∃ e, parseLine l = .error e := by
  unfold badNumericLine at hbad
  unfold parseLine
  cases hfs : findSub panePattern l with
  | none => rw [hfs] at hbad; simp at hbad
  | some gs =>
      rw [hfs] at hbad
      match gs, hbad with
      | [g1, g2, g3, g4, g5, g6, g7, g8], hbad =>
          simp only at hbad
          simp only
          cases h1 : goAtoi g1 with
          | error e => exact ⟨_, rfl⟩
          | ok v1 =>
              cases h3 : goAtoi g3 with
              | error e => exact ⟨_, rfl⟩
              | ok v3 =>
                  cases h5 : goAtoi g5 with
                  | error e => exact ⟨_, rfl⟩
                  | ok v5 =>
                      cases h6 : goAtoi g6 with
                      | error e => exact ⟨_, rfl⟩
                      | ok v6 =>
                          cases h8 : goAtoi g8 with
                          | error e => exact ⟨_, rfl⟩
                          | ok v8 =>
                              exfalso
                              rw [h1, h3, h5, h6, h8] at hbad
                              simp [Except.isOk, Except.toBool] at hbad

/-- A line failing `parseLine` anywhere in the listing makes the whole parse
loop fail. -/
theorem parseLines_error_of_mem (ls : List (List Char)) (l : List Char) (e : GoError)
    (hmem : l ∈ ls) (herr : parseLine l = .error e) :
    ∃ e', parseLines ls = .error e' := by
  induction ls with
  | nil => simp at hmem
  | cons a rest ih =>
      rcases List.mem_cons.mp hmem with rfl | hmem'
      · exact ⟨e, by simp [parseLines, herr]⟩
      · cases ha : parseLine a with
        | error e2 => exact ⟨e2, by simp [parseLines, ha]⟩
        | ok r =>
            obtain ⟨e', he'⟩ := ih hmem'
            cases r with
            | none => exact ⟨e', by simp [parseLines, ha, he']⟩
            | some p => exact ⟨e', by simp [parseLines, ha, he']⟩

/-- C3: whenever the command output contains a line that matches the pane
pattern but whose numeric field fails integer parsing, `ListPanes` fails the
whole call with an error (so no pane list, partial or otherwise, is
returned). -/
theorem C3_malformed_numeric_fatal (args : List String) (wd : World) (out errOut : String)
    (rest : List Resp) (l : List Char)
    (hs : wd.script = Resp.cmd out errOut none :: rest)
    (hmem : l ∈ splitNL out.toList)
    (hbad : badNumericLine l = true) :
    ∃ e, (ListPanes args wd).1 = .error e := by
  obtain ⟨e0, he0⟩ := parseLine_error_of_bad l hbad
  obtain ⟨e', he'⟩ := parseLines_error_of_mem (splitNL out.toList) l e0 hmem he0
  refine ⟨e', ?_⟩
  simp only [ListPanes, RunCmd, hs]
  exact he'

theorem C3_malformed_numeric_fatal_witness :
    (⟨[Resp.cmd c3out ("") none], []⟩ : World).script = Resp.cmd c3out ("") none :: [] ∧
      c3out.toList ∈ splitNL c3out.toList ∧ badNumericLine c3out.toList = true ∧
      ∃ e, (ListPanes [] ⟨[Resp.cmd c3out ("") none], []⟩).1 = .error e :=
  ⟨rfl, by decide, by decide,
    C3_malformed_numeric_fatal [] ⟨[Resp.cmd c3out ("") none], []⟩ c3out ("") []
      c3out.toList rfl (by decide) (by decide)⟩

theorem C1_pane_structure_witness :
    ∃ w' wd', paneStage c1win c1wd = (.ok w', wd') ∧
      (w'.panes.length = c1win.panes.length ∧ w'.panes.head? = some c1p0 ∧
        SplitChain { c1win with panes := [c1p0] } (Window.ListPanes c1win c1wd).2
          w'.panes.tail w' wd') :=
  ⟨_, _, rfl, C1_pane_structure c1win c1wd c1p0 _ _ (by decide) (by decide) rfl⟩

/-! ### Matcher lemmas for well-formed lines (claim C7) -/

theorem maxRun_append (p : Char → Bool) (a b : List Char) (hall : ∀ c ∈ a, p c = true) :
    maxRun p (a ++ b) = a.length + maxRun p b := by
  induction a with
  | nil => simp
  | cons c cs ih =>
      have hc : p c = true := hall c (List.mem_cons_self ..)
      simp only [List.cons_append, maxRun, hc, if_true, List.append_eq]
      rw [ih (fun x hx => hall x (List.mem_cons_of_mem _ hx))]
      simp only [List.length_cons]
      omega

theorem maxRun_cons_false (p : Char → Bool) (c : Char) (b : List Char) (h : p c = false) :
    maxRun p (c :: b) = 0 := by
  simp [maxRun, h]

theorem maxRun_all (p : Char → Bool) (s : List Char) (hall : ∀ c ∈ s, p c = true) :
    maxRun p s = s.length := by
  have := maxRun_append p s [] hall
  simpa using this

/-- If every tried group length fails the continuation, the whole group try
fails. -/
theorem tryLens_none (cont : List Char → Option (List (List Char))) (s : List Char) :
    ∀ i, (∀ j, 1 ≤ j → j ≤ i → cont (s.drop j) = none) → tryLens cont s i = none := by
  intro i
  induction i with
  | zero => intro _; rfl
  | succ i ih =>
      intro h
      rw [tryLens, h (i + 1) (by omega) (by omega)]
      exact ih (fun j h1 h2 => h j h1 (by omega))

/-- Group lengths above `j` that all fail can be skipped. -/
theorem tryLens_skip (cont : List Char → Option (List (List Char))) (s : List Char) :
    ∀ i j, j ≤ i → (∀ m, j < m → m ≤ i → cont (s.drop m) = none) →
      tryLens cont s i = tryLens cont s j := by
  intro i
  induction i with
  | zero =>
      intro j hj _
      obtain rfl : j = 0 := by omega
      rfl
  | succ i ih =>
      intro j hj h
      by_cases hji : j = i + 1
      · rw [hji]
      · have hj' : j ≤ i := by omega
        rw [tryLens, h (i + 1) (by omega) (by omega)]
        exact ih j hj' (fun m h1 h2 => h m h1 (by omega))

theorem dig_ne_colon {c : Char} (h : isDig c = true) : c ≠ ':' := by
  intro he; rw [he] at h; exact absurd h (by decide)

theorem dig_ne_at {c : Char} (h : isDig c = true) : c ≠ '@' := by
  intro he; rw [he] at h; exact absurd h (by decide)

theorem dig_ne_pct {c : Char} (h : isDig c = true) : c ≠ '%' := by
  intro he; rw [he] at h; exact absurd h (by decide)

theorem dig_ne_nl {c : Char} (h : isDig c = true) : c ≠ '\n' := by
  intro he; rw [he] at h; exact absurd h (by decide)

theorem is01_dig {c : Char} (h : is01 c = true) : isDig c = true := by
  rcases (by simpa [is01] using h : c = '0' ∨ c = '1') with rfl | rfl <;> decide

theorem actChar_is01 (b : Bool) : is01 (actChar b) = true := by
  cases b <;> decide

/-- A greedy one-or-more group followed by a literal that the class excludes
consumes exactly the maximal class run. -/
theorem matchToks_grp_lit (p : Char → Bool) (d : Char) (ts : List RTok) (ds rest : List Char)
    (hne : ds ≠ []) (hall : ∀ c ∈ ds, p c = true) (hd : p d = false) :
    matchToks (.grp p :: .lit d :: ts) (ds ++ d :: rest) =
      (matchToks ts rest).map (fun gs => ds :: gs) := by
  have hmax : maxRun p (ds ++ d :: rest) = ds.length := by
    rw [maxRun_append p ds (d :: rest) hall, maxRun_cons_false p d rest hd]
    omega
  obtain ⟨k, hk⟩ : ∃ k, ds.length = k + 1 := by
    cases hds : ds with
    | nil => exact absurd hds hne
    | cons a l => exact ⟨l.length, by simp⟩
  have hdropfull : (ds ++ d :: rest).drop ds.length = d :: rest := List.drop_left ds (d :: rest)
  have htakefull : (ds ++ d :: rest).take ds.length = ds := List.take_left ds (d :: rest)
  have hfail : ∀ j, 1 ≤ j → j ≤ k →
      matchToks (.lit d :: ts) ((ds ++ d :: rest).drop j) = none := by
    intro j h1 h2
    have hjlt : j < ds.length := by omega
    have hdrop : (ds ++ d :: rest).drop j = ds[j] :: (ds.drop (j + 1) ++ d :: rest) := by
      rw [List.drop_append_of_le_length (by omega), List.drop_eq_getElem_cons hjlt,
        List.cons_append]
    rw [hdrop, matchToks]
    have hnd : ds[j] ≠ d := by
      intro he
      have hpj := hall ds[j] (List.getElem_mem hjlt)
      rw [he, hd] at hpj
      exact absurd hpj (by simp)
    simp [hnd]
  rw [matchToks, hmax, hk, tryLens]
  rw [← hk, hdropfull]
  rw [matchToks]
  have hdd : (if d = d then matchToks ts rest else none) = matchToks ts rest := by simp
  rw [hdd]
  cases hmt : matchToks ts rest with
  | some gs =>
      show some ((ds ++ d :: rest).take ds.length :: gs) = some (ds :: gs)
      rw [htakefull]
  | none =>
      show tryLens (matchToks (.lit d :: ts)) (ds ++ d :: rest) k = none
      exact tryLens_none _ _ k hfail

/-- A final greedy one-or-more group consumes a full class run. -/
theorem matchToks_grp_final (p : Char → Bool) (ds : List Char)
    (hne : ds ≠ []) (hall : ∀ c ∈ ds, p c = true) :
    matchToks [.grp p] ds = some [ds] := by
  have hmax : maxRun p ds = ds.length := maxRun_all p ds hall
  obtain ⟨k, hk⟩ : ∃ k, ds.length = k + 1 := by
    cases hds : ds with
    | nil => exact absurd hds hne
    | cons a l => exact ⟨l.length, by simp⟩
  rw [matchToks, hmax, hk, tryLens]
  rw [← hk]
  simp [matchToks, List.take_length]

/-- A one-or-more group over a run never containing the following literal
cannot match. -/
theorem matchToks_grp_lit_none (p : Char → Bool) (d : Char) (ts : List RTok) (s : List Char)
    (hall : ∀ c ∈ s, p c = true) (hnd : ∀ c ∈ s, c ≠ d) :
    matchToks (.grp p :: .lit d :: ts) s = none := by
  rw [matchToks, maxRun_all p s hall]
  refine tryLens_none _ _ s.length ?_
  intro j h1 h2
  by_cases hj : j < s.length
  · rw [List.drop_eq_getElem_cons hj, matchToks]
    simp [hnd s[j] (List.getElem_mem hj)]
  · have : s.drop j = [] := List.drop_eq_nil_of_le (by omega)
    rw [this, matchToks]

/-- A greedy any-character group before a `:` literal: if every longer
candidate fails the continuation and the rest of the pattern accepts the
remainder, the group captures exactly the name. -/
theorem matchToks_any (n t : List Char) (ts : List RTok) (gs : List (List Char))
    (hn : n ≠ []) (hnl : ∀ c ∈ n, c ≠ '\n') (htl : ∀ c ∈ t, c ≠ '\n')
    (hfail : ∀ u, u <:+ t → matchToks (.lit ':' :: ts) u = none)
    (hcont : matchToks ts t = some gs) :
    matchToks (.grp isAny :: .lit ':' :: ts) (n ++ ':' :: t) = some (n :: gs) := by
  have hallAny : ∀ c ∈ n ++ ':' :: t, isAny c = true := by
    intro c hc
    rcases List.mem_append.mp hc with h | h
    · simp [isAny, hnl c h]
    · rcases List.mem_cons.mp h with rfl | h
      · decide
      · simp [isAny, htl c h]
  have hmax : maxRun isAny (n ++ ':' :: t) = (n ++ ':' :: t).length :=
    maxRun_all _ _ hallAny
  have hlen : (n ++ ':' :: t).length = n.length + 1 + t.length := by
    simp
    omega
  have hskip : tryLens (matchToks (.lit ':' :: ts)) (n ++ ':' :: t) (n ++ ':' :: t).length =
      tryLens (matchToks (.lit ':' :: ts)) (n ++ ':' :: t) n.length := by
    refine tryLens_skip _ _ _ _ (by omega) ?_
    intro m h1 h2
    obtain ⟨j, rfl⟩ : ∃ j, m = n.length + (1 + j) := ⟨m - n.length - 1, by omega⟩
    have hdrop : (n ++ ':' :: t).drop (n.length + (1 + j)) = t.drop j := by
      rw [List.drop_append (1 + j)]
      rw [Nat.add_comm 1 j, List.drop_succ_cons]
    rw [hdrop]
    exact hfail (t.drop j) (List.drop_suffix j t)
  obtain ⟨k, hk⟩ : ∃ k, n.length = k + 1 := by
    cases hn2 : n with
    | nil => exact absurd hn2 hn
    | cons a l => exact ⟨l.length, by simp⟩
  rw [matchToks, hmax, hskip, hk, tryLens, ← hk, List.drop_left]
  rw [matchToks]
  have hdd : (if ':' = ':' then matchToks ts t else none) = matchToks ts t := by simp
  rw [hdd, hcont]
  show some ((n ++ ':' :: t).take n.length :: gs) = some (n :: gs)
  rw [List.take_left]

theorem matchToks_lit_same (c : Char) (ts : List RTok) (rest : List Char) :
    matchToks (.lit c :: ts) (c :: rest) = matchToks ts rest := by
  rw [matchToks]
  simp

theorem matchToks_lit_ne {c d : Char} (ts : List RTok) (rest : List Char) (h : c ≠ d) :
    matchToks (.lit d :: ts) (c :: rest) = none := by
  rw [matchToks]
  simp [h]

theorem matchToks_lit_nil (d : Char) (ts : List RTok) :
    matchToks (.lit d :: ts) [] = none := rfl

theorem matchToks_grp_hd_false {p : Char → Bool} {c : Char} (ts : List RTok) (rest : List Char)
    (h : p c = false) : matchToks (.grp p :: ts) (c :: rest) = none := by
  rw [matchToks, maxRun_cons_false p c rest h]
  rfl

theorem matchToks_grp_nil (p : Char → Bool) (ts : List RTok) :
    matchToks (.grp p :: ts) [] = none := by
  rw [matchToks]
  rfl

/-- An exactly-one group captures the single class character in front. -/
theorem matchToks_one_true {p : Char → Bool} {x : Char} (ts : List RTok) (xs : List Char)
    (h : p x = true) :
    matchToks (.one p :: ts) (x :: xs) = (matchToks ts xs).map (fun gs => [x] :: gs) := by
  rw [matchToks]
  simp [h]

/-- A suffix of a concatenation is a suffix of the right part or starts with a
character of the left part. -/
theorem suffix_split {u a b : List Char} (h : u <:+ a ++ b) :
    u <:+ b ∨ ∃ c u', u = c :: u' ∧ c ∈ a := by
  induction a with
  | nil => exact Or.inl (by simpa using h)
  | cons x xs ih =>
      rcases List.suffix_cons_iff.mp (by simpa using h) with he | h'
      · exact Or.inr ⟨x, xs ++ b, he, List.mem_cons_self ..⟩
      · rcases ih h' with h'' | ⟨c, u', rfl, hc⟩
        · exact Or.inl h''
        · exact Or.inr ⟨c, u', rfl, List.mem_cons_of_mem _ hc⟩

/-- No suffix of the tail after the window name can satisfy the rest of the
pane pattern: the backtracking of the window-name group finds no alternative
match. -/
theorem tail4_fail_grp (ts' : List RTok) (C D F : List Char) (ec : Char)
    (hC : ∀ c ∈ C, isDig c = true) (hD : ∀ c ∈ D, isDig c = true)
    (hF : ∀ c ∈ F, isDig c = true) (hec : is01 ec = true) :
    ∀ u, u <:+ C ++ (':' :: '%' :: (D ++ (':' :: ec :: ':' :: F))) →
      matchToks (.lit ':' :: .grp isDig :: .lit ':' :: .lit '%' :: ts') u = none := by
  intro u hu
  rcases suffix_split hu with hu1 | ⟨c, u', rfl, hc⟩
  · rcases List.suffix_cons_iff.mp hu1 with rfl | hu2
    · rw [matchToks_lit_same]
      exact matchToks_grp_hd_false _ _ (by decide)
    · rcases List.suffix_cons_iff.mp hu2 with rfl | hu3
      · exact matchToks_lit_ne _ _ (by decide)
      · rcases suffix_split hu3 with hu4 | ⟨c, u', rfl, hc⟩
        · rcases List.suffix_cons_iff.mp hu4 with rfl | hu5
          · rw [matchToks_lit_same]
            have hcont : matchToks (.lit ':' :: .lit '%' :: ts') (':' :: F) = none := by
              rw [matchToks_lit_same]
              cases F with
              | nil => exact matchToks_lit_nil _ _
              | cons f F' =>
                  exact matchToks_lit_ne _ _ (dig_ne_pct (hF f (List.mem_cons_self ..)))
            have hmr : maxRun isDig (ec :: ':' :: F) = 1 := by
              have h2 : maxRun isDig (':' :: F) = 0 := maxRun_cons_false _ _ _ (by decide)
              simp [maxRun, is01_dig hec, h2, show isDig ':' = false from by decide]
            rw [matchToks, hmr, tryLens]
            have hdrop : (ec :: ':' :: F).drop 1 = ':' :: F := rfl
            rw [hdrop, hcont]
            rfl
          · rcases List.suffix_cons_iff.mp hu5 with rfl | hu6
            · exact matchToks_lit_ne _ _ (dig_ne_colon (is01_dig hec))
            · rcases List.suffix_cons_iff.mp hu6 with rfl | hu7
              · rw [matchToks_lit_same]
                exact matchToks_grp_lit_none isDig ':' (.lit '%' :: ts') F hF
                  (fun c hc => dig_ne_colon (hF c hc))
              · rcases suffix_split (by simpa using hu7 : u <:+ F ++ ([] : List Char)) with
                  hu8 | ⟨c, u', rfl, hc⟩
                · rw [List.suffix_nil.mp hu8]
                  exact matchToks_lit_nil _ _
                · exact matchToks_lit_ne _ _ (dig_ne_colon (hF c hc))
        · exact matchToks_lit_ne _ _ (dig_ne_colon (hD c hc))
  · exact matchToks_lit_ne _ _ (dig_ne_colon (hC c hc))

/-- Like `tail4_fail_grp`, but for a continuation expecting a literal that is
neither a digit nor the pane sigil after the separator. -/
theorem tail4_fail_lit (ts2 : List RTok) (d2 : Char) (hdig : isDig d2 = false)
    (hpct : d2 ≠ '%') (C D F : List Char) (ec : Char)
    (hC : ∀ c ∈ C, isDig c = true) (hD : ∀ c ∈ D, isDig c = true)
    (hF : ∀ c ∈ F, isDig c = true) (hec : is01 ec = true) :
    ∀ u, u <:+ C ++ (':' :: '%' :: (D ++ (':' :: ec :: ':' :: F))) →
      matchToks (.lit ':' :: .lit d2 :: ts2) u = none := by
  have hdigne : ∀ c, isDig c = true → c ≠ d2 := by
    intro c hc he
    rw [he, hdig] at hc
    exact absurd hc (by simp)
  intro u hu
  rcases suffix_split hu with hu1 | ⟨c, u', rfl, hc⟩
  · rcases List.suffix_cons_iff.mp hu1 with rfl | hu2
    · rw [matchToks_lit_same]
      exact matchToks_lit_ne _ _ (fun he => hpct he.symm)
    · rcases List.suffix_cons_iff.mp hu2 with rfl | hu3
      · exact matchToks_lit_ne _ _ (by decide)
      · rcases suffix_split hu3 with hu4 | ⟨c, u', rfl, hc⟩
        · rcases List.suffix_cons_iff.mp hu4 with rfl | hu5
          · rw [matchToks_lit_same]
            exact matchToks_lit_ne _ _ (hdigne ec (is01_dig hec))
          · rcases List.suffix_cons_iff.mp hu5 with rfl | hu6
            · exact matchToks_lit_ne _ _ (dig_ne_colon (is01_dig hec))
            · rcases List.suffix_cons_iff.mp hu6 with rfl | hu7
              · rw [matchToks_lit_same]
                cases F with
                | nil => exact matchToks_lit_nil _ _
                | cons f F' =>
                    exact matchToks_lit_ne _ _ (hdigne f (hF f (List.mem_cons_self ..)))
              · rcases suffix_split (by simpa using hu7 : u <:+ F ++ ([] : List Char)) with
                  hu8 | ⟨c, u', rfl, hc⟩
                · rw [List.suffix_nil.mp hu8]
                  exact matchToks_lit_nil _ _
                · exact matchToks_lit_ne _ _ (dig_ne_colon (hF c hc))
        · exact matchToks_lit_ne _ _ (dig_ne_colon (hD c hc))
  · exact matchToks_lit_ne _ _ (dig_ne_colon (hC c hc))

/-- No suffix of the tail after the session name can satisfy the rest of the
pane pattern: the backtracking of the session-name group finds no alternative
match. -/
theorem tail2_fail (ts3 : List RTok) (B N2 C D F : List Char) (ec : Char)
    (hB : ∀ c ∈ B, isDig c = true)
    (hN2 : ∀ c ∈ N2, c ≠ ':' ∧ c ≠ '@' ∧ c ≠ '%' ∧ c ≠ '\n')
    (hC : ∀ c ∈ C, isDig c = true) (hD : ∀ c ∈ D, isDig c = true)
    (hF : ∀ c ∈ F, isDig c = true) (hec : is01 ec = true) :
    ∀ u, u <:+ '@' :: (B ++ (':' :: (N2 ++ (':' :: (C ++ (':' :: '%' :: (D ++ (':' :: ec :: ':' :: F)))))))) →
      matchToks (.lit ':' :: .lit '@' :: ts3) u = none := by
  intro u hu
  rcases List.suffix_cons_iff.mp (by simpa using hu) with rfl | hu1
  · exact matchToks_lit_ne _ _ (by decide)
  · rcases suffix_split hu1 with hu2 | ⟨c, u', rfl, hc⟩
    · rcases List.suffix_cons_iff.mp hu2 with rfl | hu3
      · rw [matchToks_lit_same]
        cases hN2c : N2 with
        | nil => exact matchToks_lit_ne _ _ (by decide)
        | cons m N2' =>
            exact matchToks_lit_ne _ _ ((hN2 m (by rw [hN2c]; exact List.mem_cons_self ..)).2.1)
      · rcases suffix_split hu3 with hu4 | ⟨c, u', rfl, hc⟩
        · rcases List.suffix_cons_iff.mp hu4 with rfl | hu5
          · rw [matchToks_lit_same]
            cases hCc : C with
            | nil => exact matchToks_lit_ne _ _ (by decide)
            | cons c0 C' =>
                exact matchToks_lit_ne _ _
                  (dig_ne_at (hC c0 (by rw [hCc]; exact List.mem_cons_self ..)))
          · exact tail4_fail_lit ts3 '@' (by decide) (by decide) C D F ec hC hD hF hec u hu5
        · exact matchToks_lit_ne _ _ (fun he => ((hN2 c hc).1 he))
    · exact matchToks_lit_ne _ _ (dig_ne_colon (hB c hc))

/-- The rendered line, reassociated to the right. -/
theorem renderLine_eq (r : RawPane) :
    renderLine r =
      '$' :: (r.sid ++ (':' :: (r.sname ++ (':' :: ('@' :: (r.wid ++ (':' ::
        (r.wname ++ (':' :: (r.widx ++ (':' :: '%' :: (r.pid ++
          (':' :: actChar r.act :: ':' :: r.pidx))))))))))))) := by
  simp [renderLine]

/-- No character of the tail after the window name is a newline. -/
theorem tail4_no_nl (C D F : List Char) (ec : Char)
    (hC : ∀ c ∈ C, isDig c = true) (hD : ∀ c ∈ D, isDig c = true)
    (hF : ∀ c ∈ F, isDig c = true) (hec : is01 ec = true) :
    ∀ c ∈ C ++ (':' :: '%' :: (D ++ (':' :: ec :: ':' :: F))), c ≠ '\n' := by
  intro c hc
  rcases List.mem_append.mp hc with h | hc
  · exact dig_ne_nl (hC c h)
  rcases List.mem_cons.mp hc with rfl | hc
  · decide
  rcases List.mem_cons.mp hc with rfl | hc
  · decide
  rcases List.mem_append.mp hc with h | hc
  · exact dig_ne_nl (hD c h)
  rcases List.mem_cons.mp hc with rfl | hc
  · decide
  rcases List.mem_cons.mp hc with rfl | hc
  · exact dig_ne_nl (is01_dig hec)
  rcases List.mem_cons.mp hc with rfl | hc
  · decide
  exact dig_ne_nl (hF c hc)

/-- No character of the tail after the session name is a newline. -/
theorem tail2_no_nl (B N2 C D F : List Char) (ec : Char)
    (hB : ∀ c ∈ B, isDig c = true)
    (hN2 : ∀ c ∈ N2, c ≠ ':' ∧ c ≠ '@' ∧ c ≠ '%' ∧ c ≠ '\n')
    (hC : ∀ c ∈ C, isDig c = true) (hD : ∀ c ∈ D, isDig c = true)
    (hF : ∀ c ∈ F, isDig c = true) (hec : is01 ec = true) :
    ∀ c ∈ '@' :: (B ++ (':' :: (N2 ++ (':' ::
        (C ++ (':' :: '%' :: (D ++ (':' :: ec :: ':' :: F)))))))), c ≠ '\n' := by
  intro c hc
  rcases List.mem_cons.mp hc with rfl | hc
  · decide
  rcases List.mem_append.mp hc with h | hc
  · exact dig_ne_nl (hB c h)
  rcases List.mem_cons.mp hc with rfl | hc
  · decide
  rcases List.mem_append.mp hc with h | hc
  · exact (hN2 c h).2.2.2
  rcases List.mem_cons.mp hc with rfl | hc
  · decide
  exact tail4_no_nl C D F ec hC hD hF hec c hc

/-- A `goAtoi` accepted by `isOk` yields some value. -/
theorem goAtoi_ok_exists {d : List Char} (h : (goAtoi d).isOk = true) :
    ∃ v, goAtoi d = .ok v := by
  cases hg : goAtoi d with
  | ok v => exact ⟨v, rfl⟩
  | error e => rw [hg] at h; simp [Except.isOk, Except.toBool] at h

/-- On a well-formed raw line the matcher captures exactly the eight fields. -/
theorem matchToks_renderLine (r : RawPane) (h : WFRaw r) :
    matchToks panePattern (renderLine r) =
      some [r.sid, r.sname, r.wid, r.wname, r.widx, r.pid, [actChar r.act], r.pidx] := by
  have h' : goodNum r.sid ∧ goodName r.sname ∧ goodNum r.wid ∧ goodName r.wname ∧
      goodNum r.widx ∧ goodNum r.pid ∧ goodNum r.pidx := h
  obtain ⟨hsid, hsn, hwid, hwn, hwx, hpid, hpx⟩ := h'
  have hecd : is01 (actChar r.act) = true := actChar_is01 r.act
  have h17 : matchToks [.grp isDig] r.pidx = some [r.pidx] :=
    matchToks_grp_final isDig r.pidx hpx.1 hpx.2.1
  have h15 : matchToks [.one is01, .lit ':', .grp isDig]
      (actChar r.act :: ':' :: r.pidx) = some [[actChar r.act], r.pidx] := by
    rw [matchToks_one_true _ _ hecd, matchToks_lit_same, h17]
    rfl
  have h13 : matchToks (.grp isDig :: .lit ':' :: [.one is01, .lit ':', .grp isDig])
      (r.pid ++ (':' :: actChar r.act :: ':' :: r.pidx)) =
      some [r.pid, [actChar r.act], r.pidx] := by
    have h := matchToks_grp_lit isDig ':' [.one is01, .lit ':', .grp isDig] r.pid
      (actChar r.act :: ':' :: r.pidx) hpid.1 hpid.2.1 (by decide)
    rw [h15] at h
    simpa using h
  have h12 : matchToks (.lit '%' :: .grp isDig :: .lit ':' :: [.one is01, .lit ':', .grp isDig])
      ('%' :: (r.pid ++ (':' :: actChar r.act :: ':' :: r.pidx))) =
      some [r.pid, [actChar r.act], r.pidx] := by
    rw [matchToks_lit_same]
    exact h13
  have h10 : matchToks
      (.grp isDig :: .lit ':' :: .lit '%' :: .grp isDig :: .lit ':' :: [.one is01, .lit ':', .grp isDig])
      (r.widx ++ (':' :: '%' :: (r.pid ++ (':' :: actChar r.act :: ':' :: r.pidx)))) =
      some [r.widx, r.pid, [actChar r.act], r.pidx] := by
    have h := matchToks_grp_lit isDig ':'
      (.lit '%' :: .grp isDig :: .lit ':' :: [.one is01, .lit ':', .grp isDig]) r.widx
      ('%' :: (r.pid ++ (':' :: actChar r.act :: ':' :: r.pidx))) hwx.1 hwx.2.1 (by decide)
    rw [h12] at h
    simpa using h
  have h8 : matchToks
      (.grp isAny :: .lit ':' ::
        (.grp isDig :: .lit ':' :: .lit '%' :: .grp isDig :: .lit ':' :: [.one is01, .lit ':', .grp isDig]))
      (r.wname ++ (':' :: (r.widx ++ (':' :: '%' :: (r.pid ++ (':' :: actChar r.act :: ':' :: r.pidx)))))) =
      some [r.wname, r.widx, r.pid, [actChar r.act], r.pidx] :=
    matchToks_any r.wname
      (r.widx ++ (':' :: '%' :: (r.pid ++ (':' :: actChar r.act :: ':' :: r.pidx))))
      (.grp isDig :: .lit ':' :: .lit '%' :: .grp isDig :: .lit ':' :: [.one is01, .lit ':', .grp isDig])
      [r.widx, r.pid, [actChar r.act], r.pidx]
      hwn.1 (fun c hc => (hwn.2 c hc).2.2.2)
      (tail4_no_nl r.widx r.pid r.pidx (actChar r.act) hwx.2.1 hpid.2.1 hpx.2.1 hecd)
      (tail4_fail_grp (.grp isDig :: .lit ':' :: [.one is01, .lit ':', .grp isDig])
        r.widx r.pid r.pidx (actChar r.act) hwx.2.1 hpid.2.1 hpx.2.1 hecd)
      h10
  have h6 : matchToks
      (.grp isDig :: .lit ':' ::
        (.grp isAny :: .lit ':' ::
          (.grp isDig :: .lit ':' :: .lit '%' :: .grp isDig :: .lit ':' :: [.one is01, .lit ':', .grp isDig])))
      (r.wid ++ (':' :: (r.wname ++ (':' :: (r.widx ++ (':' :: '%' :: (r.pid ++ (':' :: actChar r.act :: ':' :: r.pidx)))))))) =
      some [r.wid, r.wname, r.widx, r.pid, [actChar r.act], r.pidx] := by
    have h := matchToks_grp_lit isDig ':'
      (.grp isAny :: .lit ':' ::
        (.grp isDig :: .lit ':' :: .lit '%' :: .grp isDig :: .lit ':' :: [.one is01, .lit ':', .grp isDig]))
      r.wid
      (r.wname ++ (':' :: (r.widx ++ (':' :: '%' :: (r.pid ++ (':' :: actChar r.act :: ':' :: r.pidx))))))
      hwid.1 hwid.2.1 (by decide)
    rw [h8] at h
    simpa using h
  have h5 : matchToks
      (.lit '@' :: .grp isDig :: .lit ':' ::
        (.grp isAny :: .lit ':' ::
          (.grp isDig :: .lit ':' :: .lit '%' :: .grp isDig :: .lit ':' :: [.one is01, .lit ':', .grp isDig])))
      ('@' :: (r.wid ++ (':' :: (r.wname ++ (':' :: (r.widx ++ (':' :: '%' :: (r.pid ++ (':' :: actChar r.act :: ':' :: r.pidx))))))))) =
      some [r.wid, r.wname, r.widx, r.pid, [actChar r.act], r.pidx] := by
    rw [matchToks_lit_same]
    exact h6
  have h3 : matchToks
      (.grp isAny :: .lit ':' ::
        (.lit '@' :: .grp isDig :: .lit ':' ::
          (.grp isAny :: .lit ':' ::
            (.grp isDig :: .lit ':' :: .lit '%' :: .grp isDig :: .lit ':' :: [.one is01, .lit ':', .grp isDig]))))
      (r.sname ++ (':' :: ('@' :: (r.wid ++ (':' :: (r.wname ++ (':' :: (r.widx ++ (':' :: '%' :: (r.pid ++ (':' :: actChar r.act :: ':' :: r.pidx))))))))))) =
      some [r.sname, r.wid, r.wname, r.widx, r.pid, [actChar r.act], r.pidx] :=
    matchToks_any r.sname
      ('@' :: (r.wid ++ (':' :: (r.wname ++ (':' :: (r.widx ++ (':' :: '%' :: (r.pid ++ (':' :: actChar r.act :: ':' :: r.pidx)))))))))
      (.lit '@' :: .grp isDig :: .lit ':' ::
        (.grp isAny :: .lit ':' ::
          (.grp isDig :: .lit ':' :: .lit '%' :: .grp isDig :: .lit ':' :: [.one is01, .lit ':', .grp isDig])))
      [r.wid, r.wname, r.widx, r.pid, [actChar r.act], r.pidx]
      hsn.1 (fun c hc => (hsn.2 c hc).2.2.2)
      (tail2_no_nl r.wid r.wname r.widx r.pid r.pidx (actChar r.act)
        hwid.2.1 hwn.2 hwx.2.1 hpid.2.1 hpx.2.1 hecd)
      (tail2_fail
        (.grp isDig :: .lit ':' ::
          (.grp isAny :: .lit ':' ::
            (.grp isDig :: .lit ':' :: .lit '%' :: .grp isDig :: .lit ':' :: [.one is01, .lit ':', .grp isDig])))
        r.wid r.wname r.widx r.pid r.pidx (actChar r.act)
        hwid.2.1 hwn.2 hwx.2.1 hpid.2.1 hpx.2.1 hecd)
      h5
  have h1 : matchToks
      (.grp isDig :: .lit ':' ::
        (.grp isAny :: .lit ':' ::
          (.lit '@' :: .grp isDig :: .lit ':' ::
            (.grp isAny :: .lit ':' ::
              (.grp isDig :: .lit ':' :: .lit '%' :: .grp isDig :: .lit ':' :: [.one is01, .lit ':', .grp isDig])))))
      (r.sid ++ (':' :: (r.sname ++ (':' :: ('@' :: (r.wid ++ (':' :: (r.wname ++ (':' :: (r.widx ++ (':' :: '%' :: (r.pid ++ (':' :: actChar r.act :: ':' :: r.pidx))))))))))))) =
      some [r.sid, r.sname, r.wid, r.wname, r.widx, r.pid, [actChar r.act], r.pidx] := by
    have h := matchToks_grp_lit isDig ':'
      (.grp isAny :: .lit ':' ::
        (.lit '@' :: .grp isDig :: .lit ':' ::
          (.grp isAny :: .lit ':' ::
            (.grp isDig :: .lit ':' :: .lit '%' :: .grp isDig :: .lit ':' :: [.one is01, .lit ':', .grp isDig]))))
      r.sid
      (r.sname ++ (':' :: ('@' :: (r.wid ++ (':' :: (r.wname ++ (':' :: (r.widx ++ (':' :: '%' :: (r.pid ++ (':' :: actChar r.act :: ':' :: r.pidx)))))))))))
      hsid.1 hsid.2.1 (by decide)
    rw [h3] at h
    simpa using h
  rw [renderLine_eq]
  show matchToks
      (.lit '$' ::
        (.grp isDig :: .lit ':' ::
          (.grp isAny :: .lit ':' ::
            (.lit '@' :: .grp isDig :: .lit ':' ::
              (.grp isAny :: .lit ':' ::
                (.grp isDig :: .lit ':' :: .lit '%' :: .grp isDig :: .lit ':' :: [.one is01, .lit ':', .grp isDig]))))))
      ('$' :: (r.sid ++ (':' :: (r.sname ++ (':' :: ('@' :: (r.wid ++ (':' :: (r.wname ++ (':' :: (r.widx ++ (':' :: '%' :: (r.pid ++ (':' :: actChar r.act :: ':' :: r.pidx)))))))))))))) =
      some [r.sid, r.sname, r.wid, r.wname, r.widx, r.pid, [actChar r.act], r.pidx]
  rw [matchToks_lit_same]
  exact h1

/-- On a well-formed raw line the leftmost match is at position zero. -/
theorem findSub_renderLine (r : RawPane) (h : WFRaw r) :
    findSub panePattern (renderLine r) =
      some [r.sid, r.sname, r.wid, r.wname, r.widx, r.pid, [actChar r.act], r.pidx] := by
  have hm := matchToks_renderLine r h
  rw [renderLine_eq] at hm ⊢
  rw [findSub, hm]

/-- The parser maps one well-formed raw line to exactly its `Pane` record. -/
theorem parseLine_renderLine (r : RawPane) (h : WFRaw r) :
    parseLine (renderLine r) = .ok (some (rawToPane r)) := by
  have h' : goodNum r.sid ∧ goodName r.sname ∧ goodNum r.wid ∧ goodName r.wname ∧
      goodNum r.widx ∧ goodNum r.pid ∧ goodNum r.pidx := h
  obtain ⟨hsid, hsn, hwid, hwn, hwx, hpid, hpx⟩ := h'
  obtain ⟨v1, hv1⟩ := goAtoi_ok_exists hsid.2.2
  obtain ⟨v3, hv3⟩ := goAtoi_ok_exists hwid.2.2
  obtain ⟨v5, hv5⟩ := goAtoi_ok_exists hwx.2.2
  obtain ⟨v6, hv6⟩ := goAtoi_ok_exists hpid.2.2
  obtain ⟨v8, hv8⟩ := goAtoi_ok_exists hpx.2.2
  have hact : ([actChar r.act].asString == ("1" : String)) = r.act := by
    cases r.act <;> decide
  simp only [parseLine, findSub_renderLine r h, hv1, hv3, hv5, hv6, hv8]
  simp only [rawToPane, atoiVal, hv1, hv3, hv5, hv6, hv8, hact]

/-- Splitting on the newline peels off one newline-free line. -/
theorem splitNL_append (l t : List Char) (hl : ∀ c ∈ l, c ≠ '\n') :
    splitNL (l ++ '\n' :: t) = l :: splitNL t := by
  induction l with
  | nil =>
      show splitNL ('\n' :: t) = [] :: splitNL t
      rw [splitNL]
      simp
  | cons c l ih =>
      have hc : c ≠ '\n' := hl c (List.mem_cons_self ..)
      rw [List.cons_append, splitNL, if_neg hc,
        ih (fun d hd => hl d (List.mem_cons_of_mem _ hd))]

/-- A rendered line contains no newline. -/
theorem renderLine_no_nl (r : RawPane) (h : WFRaw r) : ∀ c ∈ renderLine r, c ≠ '\n' := by
  have h' : goodNum r.sid ∧ goodName r.sname ∧ goodNum r.wid ∧ goodName r.wname ∧
      goodNum r.widx ∧ goodNum r.pid ∧ goodNum r.pidx := h
  obtain ⟨hsid, hsn, hwid, hwn, hwx, hpid, hpx⟩ := h'
  intro c hc
  rw [renderLine_eq] at hc
  rcases List.mem_cons.mp hc with rfl | hc
  · decide
  rcases List.mem_append.mp hc with h1 | hc
  · exact dig_ne_nl (hsid.2.1 c h1)
  rcases List.mem_cons.mp hc with rfl | hc
  · decide
  rcases List.mem_append.mp hc with h1 | hc
  · exact (hsn.2 c h1).2.2.2
  rcases List.mem_cons.mp hc with rfl | hc
  · decide
  exact tail2_no_nl r.wid r.wname r.widx r.pid r.pidx (actChar r.act)
    hwid.2.1 hwn.2 hwx.2.1 hpid.2.1 hpx.2.1 (actChar_is01 r.act) c hc

/-- The parsing loop maps a rendered well-formed listing to its `Pane`
records in file order. -/
theorem parseLines_render (rs : List RawPane) (h : ∀ r ∈ rs, WFRaw r) :
    parseLines (splitNL (renderListing rs)) = .ok (rs.map rawToPane) := by
  induction rs with
  | nil => rfl
  | cons r rest ih =>
      have hr : WFRaw r := h r (List.mem_cons_self ..)
      rw [renderListing, splitNL_append _ _ (renderLine_no_nl r hr), parseLines,
        parseLine_renderLine r hr, ih (fun x hx => h x (List.mem_cons_of_mem _ hx)),
        List.map_cons]

/-- **C7**: for every well-formed listing in the documented colon-separated
line format (each line `$sid:sname:@wid:wname:widx:%pid:act:pidx` with numeric
fields in range, names free of delimiter collisions, and `act` ∈ {0,1}),
`ListPanes` succeeds and yields one `Pane` record per line in file order, with
the `$`/`@`/`%` sigils stripped from the numeric session, window and pane
identifiers and the pane-active field mapped from `1`/`0` to `true`/`false`. -/
theorem C7_wellformed_listing (args : List String) (stderr : String)
    (rest : List Resp) (calls : List Call) (rs : List RawPane)
    (hwf : ∀ r ∈ rs, WFRaw r) :
    (ListPanes args ⟨Resp.cmd (renderListing rs).asString stderr none :: rest, calls⟩).1 =
      .ok (rs.map rawToPane) := by
  show parseLines (splitNL ((renderListing rs).asString.toList)) = .ok (rs.map rawToPane)
  exact parseLines_render rs hwf

/-- Witness for C7: a concrete well-formed four-pane listing parses to the four
expected records, the first active and the rest not. -/
theorem C7_wellformed_listing_witness :
    (∀ r ∈ c7rs, WFRaw r) ∧
      (ListPanes [] ⟨[Resp.cmd (renderListing c7rs).asString "" none], []⟩).1 =
        .ok (c7rs.map rawToPane) :=
  ⟨by decide, C7_wellformed_listing [] "" [] [] c7rs (by decide)⟩

end GoTmux

